import Mathlib

/-!
Shallow embedding of the css-nes snapshot-driven cache and diff engine.

The definitions below are translated from the repository source:
`src/tile-cache.js` (class `TileCache`), the `PaletteManager` class,
`src/debug-overlay.js` (class `BGLayer`), `src/sprite-layer.js`
(class `SpriteLayer`), `src/css-renderer.js` (class `CSSRenderer`) and
`src/ppu-state-extractor.js` (class `PPUStateExtractor`).

DOM side effects (offscreen canvas pixels, blob URLs, the dynamic
stylesheet text, `console.warn`) are presentation and stay outside the
model; every piece of state driving the dirty logic and the per-frame
published outputs (dirty-group sets, checksums, bank references, the
`updatedSheets` set, per-cell rendered state, quadrant positions, the
scroll transform) is modelled explicitly.  JavaScript 32-bit integer
steps (`| 0`, `>>> 0`) are modelled as arithmetic modulo 2^32.
-/

/-- A pattern-table tile — a JavaScript `Tile` object from `ppu.ptTile`.
`id` stands for the object's reference identity (two slots hold the same
object iff the ids agree); `pix` is the 64-entry pixel color-index array. -/
structure Tile where
  id : Nat
  pix : List Nat
deriving DecidableEq

/-- A JavaScript value held in a CHR bank-signature slot or in
`TileCache.prevBankRefs`: `null` (the constructor's fill value),
`undefined` (an absent array element) or a reference to a `Tile`. -/
inductive Ref where
  | null
  | undef
  | tile (id : Nat)
deriving DecidableEq

/-- Scroll fields of the extracted snapshot (`ppuState.scroll`). -/
structure Scroll where
  coarseX : Nat
  coarseY : Nat
  fineX : Nat
  fineY : Nat
  nameTableH : Nat
  nameTableV : Nat

/-- One physical nametable record of the snapshot: `tile` and `attrib`
arrays, modelled as total functions read at indices 0–959. -/
structure NTData where
  tile : Nat → Nat
  attrib : Nat → Nat

/-- The slice of the extracted PPU snapshot that `BGLayer.update` reads. -/
structure PPUSnapshot where
  nameTables : Nat → Option NTData
  mirrorMap : Fin 4 → Nat
  scroll : Scroll
  bgVisible : Bool

/-- One sprite record of the snapshot (`_extractSprites`). -/
structure Sprite where
  x : Int
  y : Int
  tileIndex : Nat
  palette : Nat
  flipH : Bool
  flipV : Bool
  behindBg : Bool

namespace PaletteManager

/-- Mutable state of a `PaletteManager` instance.  CSS color strings
`#rrggbb` are modelled by the packed value `0xRRGGBB` they spell. -/
structure State where
  prevBg : Fin 16 → Int
  prevSpr : Fin 16 → Int
  bgColors : Fin 16 → Nat
  sprColors : Fin 16 → Nat
  dirtyBgGroups : Finset Nat
  dirtySprGroups : Finset Nat

/-- Constructor `new PaletteManager()`: previous entries start at `-1`, colors at
`#000000`, both dirty-group sets empty. -/
def init : State where
  prevBg := fun _ => -1
  prevSpr := fun _ => -1
  bgColors := fun _ => 0
  sprColors := fun _ => 0
  dirtyBgGroups := ∅
  dirtySprGroups := ∅

/-- Conversion `_toCSS`: reorder packed `0xBBGGRR` into the `0xRRGGBB` value spelled
by the returned `#rrggbb` string (string formatting is presentation). -/
def toCSS (packed : Nat) : Nat :=
  let r := packed &&& 0xff
  let g := (packed >>> 8) &&& 0xff
  let b := (packed >>> 16) &&& 0xff
  (r <<< 16) ||| (g <<< 8) ||| b

/-- First `if` of the loop body inside `PaletteManager.update` for index
`i`: compare the background palette entry against the stored previous
value and on a difference store the value, convert the color and mark
group `i >> 2` in the background dirty set. -/
def updateStepBg (bgPalette : Fin 16 → Nat) (pm : State) (i : Fin 16) : State :=
  if ((bgPalette i : Int)) ≠ pm.prevBg i then
    { pm with
      bgColors := Function.update pm.bgColors i (toCSS (bgPalette i)),
      prevBg := Function.update pm.prevBg i ((bgPalette i : Int)),
      dirtyBgGroups := insert (i.val >>> 2) pm.dirtyBgGroups }
  else pm

/-- Second `if` of the loop body: the same comparison for the sprite
palette entry. -/
def updateStepSpr (sprPalette : Fin 16 → Nat) (pm : State) (i : Fin 16) : State :=
  if ((sprPalette i : Int)) ≠ pm.prevSpr i then
    { pm with
      sprColors := Function.update pm.sprColors i (toCSS (sprPalette i)),
      prevSpr := Function.update pm.prevSpr i ((sprPalette i : Int)),
      dirtySprGroups := insert (i.val >>> 2) pm.dirtySprGroups }
  else pm

/-- Body of the `for` loop inside `PaletteManager.update` for index `i`:
the two comparisons run in sequence. -/
def updateStep (bgPalette sprPalette : Fin 16 → Nat) (pm : State) (i : Fin 16) : State :=
  updateStepSpr sprPalette (updateStepBg bgPalette pm i) i

/-- Method `PaletteManager.update(bgPalette, sprPalette)`: clear both dirty-group
sets, run the comparison loop over indices 0–15, and return whether any
group changed together with the new state. -/
def update (bgPalette sprPalette : Fin 16 → Nat) (pm : State) : Bool × State :=
  let pm0 := { pm with dirtyBgGroups := (∅ : Finset Nat), dirtySprGroups := (∅ : Finset Nat) }
  let pm1 := (List.finRange 16).foldl (updateStep bgPalette sprPalette) pm0
  (decide (0 < pm1.dirtyBgGroups.card) || decide (0 < pm1.dirtySprGroups.card), pm1)

end PaletteManager

namespace TileCache

/-- Mutable state of a `TileCache` instance that feeds the dirty logic:
per-tile checksums, the stored bank signature, the per-frame
`updatedSheets` set, the previous background pattern-table base and the
consecutive-full-regeneration counter. -/
structure State where
  tileChecksums : Fin 512 → Nat
  prevBankRefs : Nat → Ref
  updatedSheets : Finset Nat
  prevBgBase : Int
  consecRegenFrames : Nat

/-- Constructor `new TileCache()`: checksums zeroed (`Uint32Array`), bank references
`null`, no updated sheets, previous background base `-1`. -/
def init : State where
  tileChecksums := fun _ => 0
  prevBankRefs := fun _ => Ref.null
  updatedSheets := ∅
  prevBgBase := -1
  consecRegenFrames := 0

/-- Spacing (unit in the last place) of IEEE-754 binary64 doubles at
magnitude `a`, covering the range `a < 2^56` reached by the hash's
int32 × 0x01000193 products: integers below 2^53 are exactly
representable and each following binade doubles the spacing. -/
def ulp (a : Nat) : Nat :=
  if a < 9007199254740992 then 1
  else if a < 18014398509481984 then 2
  else if a < 36028797018963968 then 4
  else 8

/-- Rounding of a nonnegative integer to the nearest multiple of its
double spacing, ties to even — the value an IEEE-754 float64
multiplication delivers for an exact product of magnitude `a`. -/
def roundNat (a : Nat) : Nat :=
  if a % ulp a * 2 < ulp a then a / ulp a * ulp a
  else if ulp a < a % ulp a * 2 then (a / ulp a + 1) * ulp a
  else if (a / ulp a) % 2 = 0 then a / ulp a * ulp a
  else (a / ulp a + 1) * ulp a

/-- Rounding of an integer product to the nearest double, extended to
negative values by symmetry (IEEE round-to-nearest-even is
sign-symmetric). -/
def jsRound (n : Int) : Int :=
  if n < 0 then -(roundNat n.natAbs) else roundNat n.natAbs

/-- Reading of a 32-bit pattern as the signed int32 value produced by
JavaScript bitwise operators. -/
def toSigned (x : Nat) : Int :=
  if x < 2147483648 then (x : Int) else (x : Int) - 4294967296

/-- One step of `_hashPix`: `h ^= pix[i]; h = (h * 0x01000193) | 0`.
The accumulator is carried as a 32-bit pattern; `h * 0x01000193` is a
float64 multiplication of the signed int32 value whose product (up to
~2^55) exceeds the 53-bit mantissa and is rounded to the nearest double
BEFORE `| 0` truncates back to 32 bits — the step is not an exact
product modulo 2^32. -/
def hashStep (h p : Nat) : Nat :=
  ((jsRound (toSigned (h ^^^ (p % 4294967296)) * 0x01000193)) % 4294967296).toNat

/-- First `n` steps of the `_hashPix` loop over `pix[0] .. pix[n-1]`,
seeded with `0x811c9dc5`. -/
def hashN (pix : List Nat) : Nat → Nat
  | 0 => 0x811c9dc5
  | n + 1 => hashStep (hashN pix n) (pix.getD n 0)

/-- Checksum `_hashPix(pix)`: FNV-1a-style hash of the 64-entry pixel array. -/
def hashPix (pix : List Nat) : Nat := hashN pix 64

/-- Mapping `getTilePosition(index)`: the numeric offsets named by the returned
CSS string `-{col*8}px -{row*8}px` with `col = index & 15` and
`row = (index >> 4) & 15`. -/
def getTilePosition (index : Nat) : Nat × Nat :=
  ((index &&& 15) * 8, ((index >>> 4) &&& 15) * 8)

/-- Method `_checkBankDirty(chrBankSignature, ptBase)`: whether any of the four
1KB region references of the pattern table selected by `ptBase` differs
from the stored reference. -/
def checkBankDirty (chrBankSignature : Nat → Ref) (ptBase : Nat) (prevBankRefs : Nat → Ref) : Bool :=
  let startRegion := if 256 ≤ ptBase then 4 else 0
  (List.range 4).any fun i => decide (chrBankSignature (startRegion + i) ≠ prevBankRefs (startRegion + i))

/-- Method `_updateBankRefs(chrBankSignature)`: copy signature slots 0–7 into
`prevBankRefs`. -/
def updateBankRefs (chrBankSignature : Nat → Ref) (prevBankRefs : Nat → Ref) : Nat → Ref :=
  fun i => if i < 8 then chrBankSignature i else prevBankRefs i

/-- Body of the `_checkCHRDirty` scan for tile slot `i`: absent slots are
skipped; a checksum mismatch updates the stored checksum and marks the
slot's pattern table dirty.  The accumulator is
`(pt0Dirty, pt1Dirty, tileChecksums)`. -/
def chrStep (ptTile : Fin 512 → Option Tile) (acc : Bool × Bool × (Fin 512 → Nat)) (i : Fin 512) : Bool × Bool × (Fin 512 → Nat) :=
  match ptTile i with
  | none => acc
  | some t =>
    let checksum := hashPix t.pix
    if checksum ≠ acc.2.2 i then
      (acc.1 || decide (i.val < 256), acc.2.1 || decide (256 ≤ i.val), Function.update acc.2.2 i checksum)
    else acc

/-- Method `_checkCHRDirty(ptTile)`: scan all 512 tile slots, returning the two
per-pattern-table dirty flags and the refreshed checksum baseline. -/
def checkCHRDirty (ptTile : Fin 512 → Option Tile) (tileChecksums : Fin 512 → Nat) : Bool × Bool × (Fin 512 → Nat) :=
  (List.finRange 512).foldl (chrStep ptTile) (false, false, tileChecksums)

/-- Method `TileCache.update(ptTile, paletteManager, bgBase, sprBase,
chrBankSignature)`.  Sheet indices: 0–3 background, 4–7 sprite bank 0,
8–11 sprite bank 1; a sheet index enters `updatedSheets` exactly when the
source regenerates that sheet.  `sprBase` is kept for API compatibility
and not used for sheet selection, exactly as in the source. -/
def update (ptTile : Fin 512 → Option Tile) (pm : PaletteManager.State) (bgBase sprBase : Nat) (chrBankSignature : Option (Nat → Ref)) (st : State) : State :=
  let bgBaseChanged := decide ((bgBase : Int) ≠ st.prevBgBase)
  let bankRes : Bool × Bool × Bool × (Nat → Ref) :=
    match chrBankSignature with
    | some sig =>
      (checkBankDirty sig bgBase st.prevBankRefs,
       checkBankDirty sig 0 st.prevBankRefs,
       checkBankDirty sig 256 st.prevBankRefs,
       updateBankRefs sig st.prevBankRefs)
    | none => (false, false, false, st.prevBankRefs)
  let chrRes := checkCHRDirty ptTile st.tileChecksums
  let bgDirty := bankRes.1 || (if (if 256 ≤ bgBase then 1 else 0) = 0 then chrRes.1 else chrRes.2.1)
  let spr0Dirty := bankRes.2.1 || chrRes.1
  let spr1Dirty := bankRes.2.2.1 || chrRes.2.1
  let bgSheets := (Finset.range 4).filter fun palGroup => palGroup ∈ pm.dirtyBgGroups ∨ bgDirty = true ∨ bgBaseChanged = true
  let spr0Sheets := ((Finset.range 4).filter fun palGroup => palGroup ∈ pm.dirtySprGroups ∨ spr0Dirty = true).image fun palGroup => 4 + palGroup
  let spr1Sheets := ((Finset.range 4).filter fun palGroup => palGroup ∈ pm.dirtySprGroups ∨ spr1Dirty = true).image fun palGroup => 8 + palGroup
  let updatedSheets := bgSheets ∪ spr0Sheets ∪ spr1Sheets
  { tileChecksums := chrRes.2.2
    prevBankRefs := bankRes.2.2.2
    updatedSheets := updatedSheets
    prevBgBase := (bgBase : Int)
    consecRegenFrames := if updatedSheets.card = 12 then st.consecRegenFrames + 1 else 0 }

/-- Query `bgSheetUpdated(palGroup)`. -/
def bgSheetUpdated (st : State) (palGroup : Nat) : Bool :=
  decide (palGroup ∈ st.updatedSheets)

/-- Query `sprSheetUpdated(palGroup)`: true when either bank's sheet for this
palette group was regenerated this frame. -/
def sprSheetUpdated (st : State) (palGroup : Nat) : Bool :=
  decide ((4 + palGroup) ∈ st.updatedSheets) || decide ((8 + palGroup) ∈ st.updatedSheets)

end TileCache

namespace PPUStateExtractor

/-- Method `_extractCHRBankSignature(ppu)`: sample the Tile reference at the
first slot of each 1KB CHR region, `ptTile[i * 64]`.  Reading an index
past the populated range yields `undefined`. -/
def extractCHRBankSignature (ptTile : Fin 512 → Option Tile) : Nat → Ref :=
  fun i =>
    if h : i * 64 < 512 then
      match ptTile ⟨i * 64, h⟩ with
      | some t => Ref.tile t.id
      | none => Ref.undef
    else Ref.undef

end PPUStateExtractor

namespace CSSRenderer

/-- Step 6 of `renderFrame`: the absolute scroll X published on the viewport,
`s.coarseX * 8 + s.fineX + s.nameTableH * 256`. -/
def datasetScrollX (s : Scroll) : Nat :=
  s.coarseX * 8 + s.fineX + s.nameTableH * 256

/-- Step 6 of `renderFrame`: the absolute scroll Y published on the viewport,
`s.coarseY * 8 + s.fineY + s.nameTableV * 240`. -/
def datasetScrollY (s : Scroll) : Nat :=
  s.coarseY * 8 + s.fineY + s.nameTableV * 240

end CSSRenderer

namespace BGLayer

/-- Rendered state of one background tile div that `_updateQuadrant`
mutates: `background-position`, the `bg-pal-N` class and the dataset
metadata (`tileIdx`, `palette`; `tileHex` is a hex respelling of
`tileIdx` and is not modelled separately).  `none` is the initial
unset value. -/
structure Cell where
  backgroundPosition : Option (Nat × Nat)
  palClass : Option Nat
  dataTileIdx : Option Nat
  dataPalette : Option Nat
deriving DecidableEq

/-- Mutable state of a `BGLayer` instance: the per-quadrant diff
baselines and tile divs, the quadrant `left`/`top` positions, the layer
transform and the layer visibility. -/
structure State where
  prevTile : Fin 4 → Fin 960 → Int
  prevAttrib : Fin 4 → Fin 960 → Int
  cells : Fin 4 → Fin 960 → Cell
  quadLeft : Fin 4 → Nat
  quadTop : Fin 4 → Nat
  transform : Int × Int
  displayed : Bool

/-- Constructor `new BGLayer(container)`: baselines filled with `-1`, cell rendered
state unset. -/
def init : State where
  prevTile := fun _ _ => -1
  prevAttrib := fun _ _ => -1
  cells := fun _ _ => ⟨none, none, none, none⟩
  quadLeft := fun _ => 0
  quadTop := fun _ => 0
  transform := (0, 0)
  displayed := true

/-- Body of the `_updateQuadrant` cell loop for one cell: given the
snapshot tile index and raw attribute, the stored baselines and the cell,
produce the new `(prevTile, prevAttrib, cell)` triple. -/
def cellStep (bgSheetUpd : Nat → Bool) (tileIdx rawAttrib : Nat) (pt pa : Int) (cell : Cell) : Int × Int × Cell :=
  let palGroup := rawAttrib >>> 2
  let tileChanged := (tileIdx : Int) ≠ pt
  let attribChanged := (rawAttrib : Int) ≠ pa
  let sheetChanged := bgSheetUpd palGroup
  if ¬tileChanged ∧ ¬attribChanged ∧ sheetChanged = false then (pt, pa, cell)
  else
    let cell1 :=
      if tileChanged ∨ sheetChanged = true then
        { cell with backgroundPosition := some (TileCache.getTilePosition tileIdx) }
      else cell
    let pt1 := if tileChanged ∨ sheetChanged = true then (tileIdx : Int) else pt
    if attribChanged then
      (pt1, (rawAttrib : Int),
        { cell1 with palClass := some palGroup, dataTileIdx := some tileIdx, dataPalette := some palGroup })
    else if tileChanged then
      (pt1, pa, { cell1 with dataTileIdx := some tileIdx })
    else (pt1, pa, cell1)

/-- Method `_updateQuadrant(q, ntData, tileCache)`: run the cell diff over the
960 cells of quadrant `q`. -/
def updateQuadrant (q : Fin 4) (nt : NTData) (bgSheetUpd : Nat → Bool) (st : State) : State :=
  { st with
    prevTile := Function.update st.prevTile q fun i =>
      (cellStep bgSheetUpd (nt.tile i.val) (nt.attrib i.val) (st.prevTile q i) (st.prevAttrib q i) (st.cells q i)).1
    prevAttrib := Function.update st.prevAttrib q fun i =>
      (cellStep bgSheetUpd (nt.tile i.val) (nt.attrib i.val) (st.prevTile q i) (st.prevAttrib q i) (st.cells q i)).2.1
    cells := Function.update st.cells q fun i =>
      (cellStep bgSheetUpd (nt.tile i.val) (nt.attrib i.val) (st.prevTile q i) (st.prevAttrib q i) (st.cells q i)).2.2 }

/-- Horizontal position computed by the repositioning loop of
`BGLayer.update` for quadrant `q`: base `col * 256` from `col = q & 1`,
advanced by 512 when the quadrant's right edge is at or behind the
scroll origin. -/
def posX (scrollX : Nat) (q : Fin 4) : Nat :=
  let col := q.val &&& 1
  let qx := col * 256
  if qx + 256 ≤ scrollX then qx + 512 else qx

/-- Vertical position computed by the repositioning loop: base
`row * 240` from `row = q >> 1`, advanced by 480 when the quadrant's
bottom edge is at or behind the scroll origin. -/
def posY (scrollY : Nat) (q : Fin 4) : Nat :=
  let row := q.val >>> 1
  let qy := row * 240
  if qy + 240 ≤ scrollY then qy + 480 else qy

/-- Body of the quadrant repositioning loop of `BGLayer.update` for
quadrant `q`: assign the computed `left`/`top` styles. -/
def posStep (scrollX scrollY : Nat) (st : State) (q : Fin 4) : State :=
  { st with
    quadLeft := Function.update st.quadLeft q (posX scrollX q)
    quadTop := Function.update st.quadTop q (posY scrollY q) }

/-- Method `BGLayer.update(ppuState, tileCache)`: set visibility, run the cell
diff for each quadrant whose mirror-mapped physical nametable is present,
compute the scroll pixel position, reposition the four quadrants and
translate the layer by the negative scroll offset.  `bgSheetUpd` is the
cache query `tileCache.bgSheetUpdated`. -/
def update (ppu : PPUSnapshot) (bgSheetUpd : Nat → Bool) (st : State) : State :=
  if ppu.bgVisible = false then { st with displayed := false } else
  let st1 := { st with displayed := true }
  let st2 := (List.finRange 4).foldl (fun s q =>
      match ppu.nameTables (ppu.mirrorMap q) with
      | none => s
      | some nt => updateQuadrant q nt bgSheetUpd s) st1
  let scrollX := ppu.scroll.coarseX * 8 + ppu.scroll.fineX + ppu.scroll.nameTableH * 256
  let scrollY := ppu.scroll.coarseY * 8 + ppu.scroll.fineY + ppu.scroll.nameTableV * 240
  let st3 := (List.finRange 4).foldl (posStep scrollX scrollY) st2
  { st3 with transform := (-(scrollX : Int), -(scrollY : Int)) }

end BGLayer

namespace SpriteLayer

/-- Output of `_update8x16` for one sprite that the claimwork reads: the
selected sheet bank index, the `spr-b{bank}-pal-{group}` class of both
halves (modelled as the `(bank, group)` pair) and the two halves'
`background-position` offsets. -/
structure HalfView where
  bankIdx : Nat
  palClass : Nat × Nat
  topPos : Nat × Nat
  botPos : Nat × Nat
deriving DecidableEq

/-- Method `_update8x16(i, spr, palGroup, ...)`: bank from bit 0 of the tile
index, tile pair from the index with bit 0 cleared, halves swapped when
vertically flipped. -/
def update8x16 (spr : Sprite) (palGroup : Nat) : HalfView :=
  let bank := if spr.tileIndex &&& 1 = 1 then 256 else 0
  let bankIdx := if bank = 0 then 0 else 1
  let topTileIdx := spr.tileIndex &&& 0xFE
  let botTileIdx := topTileIdx + 1
  { bankIdx := bankIdx
    palClass := (bankIdx, palGroup)
    topPos := if spr.flipV then TileCache.getTilePosition botTileIdx else TileCache.getTilePosition topTileIdx
    botPos := if spr.flipV then TileCache.getTilePosition topTileIdx else TileCache.getTilePosition botTileIdx }

end SpriteLayer

/-! ### Arithmetic facts about the float-rounded checksum step -/

namespace TileCache

lemma roundNat_err (a : Nat) : a ≤ roundNat a + 4 ∧ roundNat a ≤ a + 4 := by
  unfold roundNat ulp
  split_ifs <;> omega

lemma jsRound_err (n : Int) : n - 4 ≤ jsRound n ∧ jsRound n ≤ n + 4 := by
  unfold jsRound
  obtain ⟨h1, h2⟩ := roundNat_err n.natAbs
  split_ifs with hneg <;> omega

lemma hashStep_lt (h p : Nat) : hashStep h p < 4294967296 := by
  unfold hashStep
  have h1 : 0 ≤ jsRound (toSigned (h ^^^ (p % 4294967296)) * 0x01000193) % 4294967296 :=
    Int.emod_nonneg _ (by norm_num)
  have h2 : jsRound (toSigned (h ^^^ (p % 4294967296)) * 0x01000193) % 4294967296 < 4294967296 :=
    Int.emod_lt_of_pos _ (by norm_num)
  omega

lemma hashN_lt (pix : List Nat) (n : Nat) : hashN pix n < 4294967296 := by
  cases n with
  | zero => simp only [hashN]; decide
  | succ n => exact hashStep_lt _ _

lemma hashN_congr {pix1 pix2 : List Nat} (n : Nat)
    (hagree : ∀ i, i < n → pix1.getD i 0 = pix2.getD i 0) :
    hashN pix1 n = hashN pix2 n := by
  induction n with
  | zero => rfl
  | succ n ih =>
    simp only [hashN]
    rw [ih fun i hi => hagree i (by omega), hagree n (by omega)]

lemma xor_small_shiftRight (h p : Nat) (hp : p < 4) : (h ^^^ p) >>> 2 = h >>> 2 := by
  apply Nat.eq_of_testBit_eq
  intro i
  rw [Nat.testBit_shiftRight, Nat.testBit_shiftRight, Nat.testBit_xor]
  have hb : p.testBit (2 + i) = false := by
    apply Nat.testBit_lt_two_pow
    calc p < 4 := hp
    _ = 2 ^ 2 := by norm_num
    _ ≤ 2 ^ (2 + i) := Nat.pow_le_pow_right (by norm_num) (by omega)
  rw [hb, Bool.xor_false]

lemma xor_small_div (h p : Nat) (hp : p < 4) : (h ^^^ p) / 4 = h / 4 := by
  have h2 := xor_small_shiftRight h p hp
  rwa [Nat.shiftRight_eq_div_pow, Nat.shiftRight_eq_div_pow] at h2

lemma hashStep_ne_small {h p q : Nat} (hh : h < 4294967296) (hp : p < 4) (hq : q < 4)
    (hne : p ≠ q) : hashStep h p ≠ hashStep h q := by
  intro heq
  unfold hashStep at heq
  rw [Nat.mod_eq_of_lt (show p < 4294967296 by omega),
    Nat.mod_eq_of_lt (show q < 4294967296 by omega)] at heq
  have hxpq : (h ^^^ p) ≠ (h ^^^ q) := by
    intro he
    exact hne (by simpa [Nat.xor_cancel_left] using congrArg (fun z => h ^^^ z) he)
  have hdp : (h ^^^ p) / 4 = h / 4 := xor_small_div h p hp
  have hdq : (h ^^^ q) / 4 = h / 4 := xor_small_div h q hq
  have hxp_lt : (h ^^^ p) < 4294967296 := by
    have h32 : (4294967296 : Nat) = 2 ^ 32 := by norm_num
    rw [h32] at hh ⊢
    exact Nat.xor_lt_two_pow hh (lt_of_lt_of_le hp (by norm_num))
  have hxq_lt : (h ^^^ q) < 4294967296 := by
    have h32 : (4294967296 : Nat) = 2 ^ 32 := by norm_num
    rw [h32] at hh ⊢
    exact Nat.xor_lt_two_pow hh (lt_of_lt_of_le hq (by norm_num))
  have hs1 : toSigned (h ^^^ p) - toSigned (h ^^^ q)
      = ((h ^^^ p : Nat) : Int) - ((h ^^^ q : Nat) : Int) := by
    unfold toSigned
    split_ifs <;> omega
  have hd1 : toSigned (h ^^^ p) - toSigned (h ^^^ q) ≤ 3
      ∧ -3 ≤ toSigned (h ^^^ p) - toSigned (h ^^^ q)
      ∧ toSigned (h ^^^ p) ≠ toSigned (h ^^^ q) := by
    rw [hs1]
    omega
  obtain ⟨hr1, hr2⟩ := jsRound_err (toSigned (h ^^^ p) * 0x01000193)
  obtain ⟨hr3, hr4⟩ := jsRound_err (toSigned (h ^^^ q) * 0x01000193)
  have hres : jsRound (toSigned (h ^^^ p) * 0x01000193) % 4294967296
      = jsRound (toSigned (h ^^^ q) * 0x01000193) % 4294967296 := by
    have hn1 : 0 ≤ jsRound (toSigned (h ^^^ p) * 0x01000193) % 4294967296 :=
      Int.emod_nonneg _ (by norm_num)
    have hn2 : 0 ≤ jsRound (toSigned (h ^^^ q) * 0x01000193) % 4294967296 :=
      Int.emod_nonneg _ (by norm_num)
    omega
  have hdvd : (4294967296 : Int)
      ∣ (jsRound (toSigned (h ^^^ p) * 0x01000193)
          - jsRound (toSigned (h ^^^ q) * 0x01000193)) := by
    apply Int.dvd_of_emod_eq_zero
    rw [Int.sub_emod, hres, sub_self, Int.zero_emod]
  obtain ⟨k, hk⟩ := hdvd
  have hcase : toSigned (h ^^^ p) - toSigned (h ^^^ q) = -3
      ∨ toSigned (h ^^^ p) - toSigned (h ^^^ q) = -2
      ∨ toSigned (h ^^^ p) - toSigned (h ^^^ q) = -1
      ∨ toSigned (h ^^^ p) - toSigned (h ^^^ q) = 1
      ∨ toSigned (h ^^^ p) - toSigned (h ^^^ q) = 2
      ∨ toSigned (h ^^^ p) - toSigned (h ^^^ q) = 3 := by omega
  rcases hcase with hc | hc | hc | hc | hc | hc <;> omega

lemma hashN_ne_succ {pix1 pix2 : List Nat} {j : Nat}
    (hagree : ∀ i, i < j → pix1.getD i 0 = pix2.getD i 0)
    (hp : pix1.getD j 0 < 4) (hq : pix2.getD j 0 < 4)
    (hne : pix1.getD j 0 ≠ pix2.getD j 0) :
    hashN pix1 (j + 1) ≠ hashN pix2 (j + 1) := by
  simp only [hashN]
  rw [hashN_congr j hagree]
  exact hashStep_ne_small (hashN_lt pix2 j) hp hq hne

end TileCache

/-- C3 (amended): `_hashPix` is deterministic — it depends only on the
64 pixel values read by the loop and always yields a 32-bit value.  The
sensitivity claim as stated is refuted by `C3_counterexample` (the
float64 rounding inside `(h * 0x01000193) | 0` can erase a single-entry
difference); what holds is that for pixel color-index values (< 4) the
accumulator diverges at the differing step, and in particular a single
difference at the final position always changes the hash. -/
theorem C3_hash_deterministic_and_divergence :
    ∀ (pix1 pix2 : List Nat) (j : Nat),
      TileCache.hashPix pix1 < 4294967296
      ∧ ((∀ i, i < 64 → pix1.getD i 0 = pix2.getD i 0) →
          TileCache.hashPix pix1 = TileCache.hashPix pix2)
      ∧ (pix1.getD j 0 < 4 → pix2.getD j 0 < 4 →
         pix1.getD j 0 ≠ pix2.getD j 0 →
         (∀ i, i < j → pix1.getD i 0 = pix2.getD i 0) →
         TileCache.hashN pix1 (j + 1) ≠ TileCache.hashN pix2 (j + 1))
      ∧ ((∀ i, i < 63 → pix1.getD i 0 = pix2.getD i 0) →
         pix1.getD 63 0 < 4 → pix2.getD 63 0 < 4 →
         pix1.getD 63 0 ≠ pix2.getD 63 0 →
         TileCache.hashPix pix1 ≠ TileCache.hashPix pix2) := by
  intro pix1 pix2 j
  refine ⟨TileCache.hashN_lt pix1 64, fun hagree => TileCache.hashN_congr 64 hagree, ?_, ?_⟩
  · intro hp hq hne hagree
    exact TileCache.hashN_ne_succ hagree hp hq hne
  · intro hagree hp hq hne
    exact TileCache.hashN_ne_succ hagree hp hq hne

/-- First array of the C3 counterexample: entry 0 is chosen so the
accumulator after the seed XOR is 1193090854; the other 63 entries are
zero. -/
def hashCexA : List Nat := 3321987811 :: List.replicate 63 0

/-- Second array of the C3 counterexample: differs from `hashCexA`
exactly at position 0; the accumulator after the seed XOR is
1890323642, whose exact step product differs from the first by
−4 mod 2^32 — a gap the two float64 rounding errors (−2 and +2) close. -/
def hashCexB : List Nat := 4054880639 :: List.replicate 63 0

set_option maxRecDepth 100000 in
/-- Counterexample to C3 as stated: two 64-element pixel arrays equal at
63 positions and differing at exactly one position whose `_hashPix`
values coincide (both evaluate to 2611217904). -/
theorem C3_counterexample :
    hashCexA.length = 64 ∧ hashCexB.length = 64
    ∧ hashCexA.getD 0 0 ≠ hashCexB.getD 0 0
    ∧ (∀ i, i < 64 → i ≠ 0 → hashCexA.getD i 0 = hashCexB.getD i 0)
    ∧ TileCache.hashPix hashCexA = TileCache.hashPix hashCexB := by
  refine ⟨rfl, rfl, by decide, by decide, by decide⟩

set_option maxRecDepth 100000 in
/-- Witness for the amended C3 at concrete inputs: a 64-entry array of
ones hashes like the same values with a 65th entry appended (only the
first 64 are read); the accumulators diverge at a differing first entry
(2 versus 3); and arrays differing only in their final entry (2 versus
3) hash differently. -/
theorem C3_witness :
    TileCache.hashPix (List.replicate 64 1)
        = TileCache.hashPix (List.replicate 64 1 ++ [99])
    ∧ TileCache.hashN (2 :: List.replicate 63 1) 1
        ≠ TileCache.hashN (3 :: List.replicate 63 1) 1
    ∧ TileCache.hashPix (List.replicate 63 1 ++ [2])
        ≠ TileCache.hashPix (List.replicate 63 1 ++ [3]) := by
  refine ⟨?_, ?_, ?_⟩
  · exact (C3_hash_deterministic_and_divergence (List.replicate 64 1)
      (List.replicate 64 1 ++ [99]) 0).2.1 (by decide)
  · exact (C3_hash_deterministic_and_divergence (2 :: List.replicate 63 1)
      (3 :: List.replicate 63 1) 0).2.2.1 (by decide) (by decide) (by decide)
      (by decide)
  · exact (C3_hash_deterministic_and_divergence (List.replicate 63 1 ++ [2])
      (List.replicate 63 1 ++ [3]) 0).2.2.2 (by decide) (by decide) (by decide)
      (by decide)

/-! ### The tile-to-sheet-position mapping -/

namespace TileCache

set_option maxRecDepth 8192 in
lemma getTilePosition_formula : ∀ i, i < 256 →
    getTilePosition i = (i % 16 * 8, i / 16 * 8) := by decide

end TileCache

/-- C5: `getTilePosition` realizes `index → (col = index mod 16,
row = index div 16) → (col*8, row*8)` and is a bijection from tile
indices 0–255 onto the 8-pixel-aligned offsets of the 128×128 sheet; in
particular 0 ↦ (0,0), 15 ↦ (120,0), 16 ↦ (0,8), 255 ↦ (120,120). -/
theorem C5_getTilePosition_bijection :
    ∀ i j x y : Nat,
      (i < 256 → TileCache.getTilePosition i = (i % 16 * 8, i / 16 * 8))
      ∧ (i < 256 → j < 256 →
          TileCache.getTilePosition i = TileCache.getTilePosition j → i = j)
      ∧ (x < 128 → y < 128 → x % 8 = 0 → y % 8 = 0 →
          ∃ t, t < 256 ∧ TileCache.getTilePosition t = (x, y))
      ∧ TileCache.getTilePosition 0 = (0, 0)
      ∧ TileCache.getTilePosition 15 = (120, 0)
      ∧ TileCache.getTilePosition 16 = (0, 8)
      ∧ TileCache.getTilePosition 255 = (120, 120) := by
  intro i j x y
  refine ⟨TileCache.getTilePosition_formula i, ?_, ?_, by decide, by decide, by decide, by decide⟩
  · intro hi hj he
    rw [TileCache.getTilePosition_formula i hi, TileCache.getTilePosition_formula j hj] at he
    rw [Prod.mk.injEq] at he
    omega
  · intro hx hy hx8 hy8
    refine ⟨y / 8 * 16 + x / 8, by omega, ?_⟩
    rw [TileCache.getTilePosition_formula _ (by omega), Prod.mk.injEq]
    omega

/-- Witness for C5 at concrete inputs: the formula at index 255 and a
preimage of the aligned offset (120, 48). -/
theorem C5_witness :
    TileCache.getTilePosition 255 = (255 % 16 * 8, 255 / 16 * 8)
    ∧ ∃ t, t < 256 ∧ TileCache.getTilePosition t = (120, 48) := by
  refine ⟨(C5_getTilePosition_bijection 255 0 0 0).1 (by decide), ?_⟩
  exact (C5_getTilePosition_bijection 0 0 120 48).2.2.1 (by decide) (by decide)
    (by decide) (by decide)

/-! ### Double-height sprite bank and half selection -/

namespace SpriteLayer

set_option maxRecDepth 8192 in
lemma and_254_eq : ∀ t, t < 256 → t &&& 254 = t - t % 2 := by decide

set_option maxRecDepth 8192 in
lemma and_1_eq : ∀ t, t < 256 → t &&& 1 = t % 2 := by decide

end SpriteLayer

/-- C9: in 8×16 mode the sheet bank is chosen per-sprite from bit 0 of
the tile index (odd index selects the upper bank, even the lower), the
top-half tile is the index with bit 0 cleared and the bottom-half tile is
that value plus one; a vertical flip swaps which half displays which
tile.  The bank also determines the halves' palette class. -/
theorem C9_update8x16_bank_and_halves :
    ∀ (spr : Sprite) (palGroup : Nat), spr.tileIndex < 256 →
      (SpriteLayer.update8x16 spr palGroup).bankIdx = spr.tileIndex % 2
      ∧ (SpriteLayer.update8x16 spr palGroup).palClass = (spr.tileIndex % 2, palGroup)
      ∧ (SpriteLayer.update8x16 spr palGroup).topPos
          = TileCache.getTilePosition
              (if spr.flipV then spr.tileIndex - spr.tileIndex % 2 + 1
               else spr.tileIndex - spr.tileIndex % 2)
      ∧ (SpriteLayer.update8x16 spr palGroup).botPos
          = TileCache.getTilePosition
              (if spr.flipV then spr.tileIndex - spr.tileIndex % 2
               else spr.tileIndex - spr.tileIndex % 2 + 1) := by
  intro spr palGroup ht
  have h254 := SpriteLayer.and_254_eq spr.tileIndex ht
  have h1 := SpriteLayer.and_1_eq spr.tileIndex ht
  have hbank : (if spr.tileIndex &&& 1 = 1 then 256 else 0) = (if spr.tileIndex % 2 = 1 then 256 else 0) := by
    rw [h1]
  unfold SpriteLayer.update8x16
  rcases Nat.mod_two_eq_zero_or_one spr.tileIndex with h2 | h2 <;>
    simp [hbank, h2, h254, apply_ite TileCache.getTilePosition]

/-- Witness for C9: tile index 5 with vertical flip — bank 1, top half
shows tile 5, bottom half shows tile 4. -/
theorem C9_witness :
    (SpriteLayer.update8x16 ⟨0, 0, 5, 0, false, true, false⟩ 2).bankIdx = 5 % 2
    ∧ (SpriteLayer.update8x16 ⟨0, 0, 5, 0, false, true, false⟩ 2).topPos
        = TileCache.getTilePosition (5 - 5 % 2 + 1) := by
  have h := C9_update8x16_bank_and_halves ⟨0, 0, 5, 0, false, true, false⟩ 2 (by decide)
  exact ⟨h.1, by simpa using h.2.2.1⟩

/-! ### Palette dirty-group tracking -/

namespace PaletteManager

lemma updateStepBg_prevSpr (bg : Fin 16 → Nat) (pm : State) (i : Fin 16) :
    (updateStepBg bg pm i).prevSpr = pm.prevSpr := by
  unfold updateStepBg
  split_ifs <;> rfl

lemma updateStepBg_dirtySpr (bg : Fin 16 → Nat) (pm : State) (i : Fin 16) :
    (updateStepBg bg pm i).dirtySprGroups = pm.dirtySprGroups := by
  unfold updateStepBg
  split_ifs <;> rfl

lemma updateStepSpr_prevBg (spr : Fin 16 → Nat) (pm : State) (i : Fin 16) :
    (updateStepSpr spr pm i).prevBg = pm.prevBg := by
  unfold updateStepSpr
  split_ifs <;> rfl

lemma updateStepSpr_dirtyBg (spr : Fin 16 → Nat) (pm : State) (i : Fin 16) :
    (updateStepSpr spr pm i).dirtyBgGroups = pm.dirtyBgGroups := by
  unfold updateStepSpr
  split_ifs <;> rfl

lemma updateStep_prevBg_self (bg spr : Fin 16 → Nat) (pm : State) (i : Fin 16) :
    (updateStep bg spr pm i).prevBg i = (bg i : Int) := by
  unfold updateStep
  rw [updateStepSpr_prevBg]
  unfold updateStepBg
  split_ifs with h
  · simp [Function.update_same]
  · simp only [ne_eq, not_not] at h
    exact h.symm

lemma updateStep_prevBg_other (bg spr : Fin 16 → Nat) (pm : State) {i j : Fin 16}
    (hne : j ≠ i) : (updateStep bg spr pm i).prevBg j = pm.prevBg j := by
  unfold updateStep
  rw [updateStepSpr_prevBg]
  unfold updateStepBg
  split_ifs <;> simp [Function.update_noteq hne]

lemma updateStep_prevSpr_self (bg spr : Fin 16 → Nat) (pm : State) (i : Fin 16) :
    (updateStep bg spr pm i).prevSpr i = (spr i : Int) := by
  unfold updateStep updateStepSpr
  rw [updateStepBg_prevSpr]
  split_ifs with h
  · simp [Function.update_same]
  · rw [updateStepBg_prevSpr]
    simp only [ne_eq, not_not] at h
    exact h.symm

lemma updateStep_prevSpr_other (bg spr : Fin 16 → Nat) (pm : State) {i j : Fin 16}
    (hne : j ≠ i) : (updateStep bg spr pm i).prevSpr j = pm.prevSpr j := by
  unfold updateStep updateStepSpr
  split_ifs <;> simp [Function.update_noteq hne, updateStepBg_prevSpr]

lemma updateStep_dirtyBg (bg spr : Fin 16 → Nat) (pm : State) (i : Fin 16) (g : Nat) :
    (g ∈ (updateStep bg spr pm i).dirtyBgGroups
      ↔ g ∈ pm.dirtyBgGroups ∨ ((bg i : Int) ≠ pm.prevBg i ∧ g = i.val >>> 2)) := by
  unfold updateStep
  rw [updateStepSpr_dirtyBg]
  unfold updateStepBg
  split_ifs with h
  · simp only [Finset.mem_insert]
    constructor
    · rintro (hg | hin)
      exacts [Or.inr ⟨h, hg⟩, Or.inl hin]
    · rintro (hin | ⟨hne, hg⟩)
      exacts [Or.inr hin, Or.inl hg]
  · simp only [ne_eq, not_not] at h
    simp [h]

lemma updateStep_dirtySpr (bg spr : Fin 16 → Nat) (pm : State) (i : Fin 16) (g : Nat) :
    (g ∈ (updateStep bg spr pm i).dirtySprGroups
      ↔ g ∈ pm.dirtySprGroups ∨ ((spr i : Int) ≠ pm.prevSpr i ∧ g = i.val >>> 2)) := by
  unfold updateStep updateStepSpr
  rw [updateStepBg_prevSpr]
  split_ifs with h
  · simp only [updateStepBg_dirtySpr, Finset.mem_insert]
    constructor
    · rintro (hg | hin)
      exacts [Or.inr ⟨h, hg⟩, Or.inl hin]
    · rintro (hin | ⟨hne, hg⟩)
      exacts [Or.inr hin, Or.inl hg]
  · simp only [ne_eq, not_not] at h
    simp [updateStepBg_dirtySpr, h]

lemma foldl_prevBg (bg spr : Fin 16 → Nat) (l : List (Fin 16)) :
    ∀ (acc : State) (j : Fin 16),
      (l.foldl (updateStep bg spr) acc).prevBg j
        = if j ∈ l then (bg j : Int) else acc.prevBg j := by
  induction l with
  | nil => intro acc j; simp
  | cons x xs ih =>
    intro acc j
    rw [List.foldl_cons, ih]
    by_cases hxs : j ∈ xs
    · simp [hxs, List.mem_cons]
    · by_cases hx : j = x
      · subst hx
        simp [hxs, updateStep_prevBg_self, List.mem_cons]
      · simp [hxs, hx, updateStep_prevBg_other bg spr acc hx, List.mem_cons]

lemma foldl_prevSpr (bg spr : Fin 16 → Nat) (l : List (Fin 16)) :
    ∀ (acc : State) (j : Fin 16),
      (l.foldl (updateStep bg spr) acc).prevSpr j
        = if j ∈ l then (spr j : Int) else acc.prevSpr j := by
  induction l with
  | nil => intro acc j; simp
  | cons x xs ih =>
    intro acc j
    rw [List.foldl_cons, ih]
    by_cases hxs : j ∈ xs
    · simp [hxs, List.mem_cons]
    · by_cases hx : j = x
      · subst hx
        simp [hxs, updateStep_prevSpr_self, List.mem_cons]
      · simp [hxs, hx, updateStep_prevSpr_other bg spr acc hx, List.mem_cons]

lemma foldl_dirtyBg (bg spr : Fin 16 → Nat) (l : List (Fin 16)) (hl : l.Nodup) :
    ∀ (acc : State) (g : Nat),
      (g ∈ (l.foldl (updateStep bg spr) acc).dirtyBgGroups
        ↔ g ∈ acc.dirtyBgGroups
          ∨ ∃ j ∈ l, ((bg j : Int) ≠ acc.prevBg j ∧ g = j.val >>> 2)) := by
  induction l with
  | nil => intro acc g; simp
  | cons x xs ih =>
    intro acc g
    rw [List.nodup_cons] at hl
    rw [List.foldl_cons, ih hl.2, updateStep_dirtyBg]
    have hprev : ∀ j ∈ xs, (updateStep bg spr acc x).prevBg j = acc.prevBg j := by
      intro j hj
      exact updateStep_prevBg_other bg spr acc fun he => hl.1 (he ▸ hj)
    constructor
    · rintro ((hin | ⟨hne, hg⟩) | ⟨j, hj, hne, hg⟩)
      · exact Or.inl hin
      · exact Or.inr ⟨x, List.mem_cons_self x xs, hne, hg⟩
      · exact Or.inr ⟨j, List.mem_cons_of_mem x hj, by rwa [hprev j hj] at hne, hg⟩
    · rintro (hin | ⟨j, hj, hne, hg⟩)
      · exact Or.inl (Or.inl hin)
      · rcases List.mem_cons.mp hj with rfl | hj'
        · exact Or.inl (Or.inr ⟨hne, hg⟩)
        · exact Or.inr ⟨j, hj', by rwa [hprev j hj'], hg⟩

lemma foldl_dirtySpr (bg spr : Fin 16 → Nat) (l : List (Fin 16)) (hl : l.Nodup) :
    ∀ (acc : State) (g : Nat),
      (g ∈ (l.foldl (updateStep bg spr) acc).dirtySprGroups
        ↔ g ∈ acc.dirtySprGroups
          ∨ ∃ j ∈ l, ((spr j : Int) ≠ acc.prevSpr j ∧ g = j.val >>> 2)) := by
  induction l with
  | nil => intro acc g; simp
  | cons x xs ih =>
    intro acc g
    rw [List.nodup_cons] at hl
    rw [List.foldl_cons, ih hl.2, updateStep_dirtySpr]
    have hprev : ∀ j ∈ xs, (updateStep bg spr acc x).prevSpr j = acc.prevSpr j := by
      intro j hj
      exact updateStep_prevSpr_other bg spr acc fun he => hl.1 (he ▸ hj)
    constructor
    · rintro ((hin | ⟨hne, hg⟩) | ⟨j, hj, hne, hg⟩)
      · exact Or.inl hin
      · exact Or.inr ⟨x, List.mem_cons_self x xs, hne, hg⟩
      · exact Or.inr ⟨j, List.mem_cons_of_mem x hj, by rwa [hprev j hj] at hne, hg⟩
    · rintro (hin | ⟨j, hj, hne, hg⟩)
      · exact Or.inl (Or.inl hin)
      · rcases List.mem_cons.mp hj with rfl | hj'
        · exact Or.inl (Or.inr ⟨hne, hg⟩)
        · exact Or.inr ⟨j, hj', by rwa [hprev j hj'], hg⟩

lemma update_prevBg (bg spr : Fin 16 → Nat) (pm : State) (j : Fin 16) :
    ((update bg spr pm).2).prevBg j = (bg j : Int) := by
  unfold update
  simp only
  rw [foldl_prevBg]
  simp [List.mem_finRange]

lemma update_prevSpr (bg spr : Fin 16 → Nat) (pm : State) (j : Fin 16) :
    ((update bg spr pm).2).prevSpr j = (spr j : Int) := by
  unfold update
  simp only
  rw [foldl_prevSpr]
  simp [List.mem_finRange]

lemma update_dirtyBg_mem (bg spr : Fin 16 → Nat) (pm : State) (g : Nat) :
    (g ∈ ((update bg spr pm).2).dirtyBgGroups
      ↔ ∃ j : Fin 16, ((bg j : Int) ≠ pm.prevBg j ∧ g = j.val >>> 2)) := by
  unfold update
  simp only
  rw [foldl_dirtyBg bg spr _ (List.nodup_finRange 16)]
  simp [List.mem_finRange]

lemma update_dirtySpr_mem (bg spr : Fin 16 → Nat) (pm : State) (g : Nat) :
    (g ∈ ((update bg spr pm).2).dirtySprGroups
      ↔ ∃ j : Fin 16, ((spr j : Int) ≠ pm.prevSpr j ∧ g = j.val >>> 2)) := by
  unfold update
  simp only
  rw [foldl_dirtySpr bg spr _ (List.nodup_finRange 16)]
  simp [List.mem_finRange]

lemma update_fst (bg spr : Fin 16 → Nat) (pm : State) :
    (update bg spr pm).1
      = (decide (0 < ((update bg spr pm).2).dirtyBgGroups.card)
         || decide (0 < ((update bg spr pm).2).dirtySprGroups.card)) := rfl

end PaletteManager

/-- C4: for every stored previous palette state, an update whose palettes
differ from the stored values at exactly index `i` of exactly one role
marks exactly group `i / 4` dirty in that role's dirty-group set, marks
no group in the other role's set, and returns `true`; the sets are
rebuilt from scratch each call (the stored dirty sets of the previous
frame are ignored — the state `pm` here carries arbitrary ones). -/
theorem C4_palette_single_entry_delta :
    ∀ (pm : PaletteManager.State) (bgPal sprPal : Fin 16 → Nat) (i : Fin 16),
      (((∀ j : Fin 16, j ≠ i → (bgPal j : Int) = pm.prevBg j)
          ∧ (bgPal i : Int) ≠ pm.prevBg i
          ∧ (∀ j : Fin 16, (sprPal j : Int) = pm.prevSpr j)) →
        ((PaletteManager.update bgPal sprPal pm).2.dirtyBgGroups = {i.val / 4}
          ∧ (PaletteManager.update bgPal sprPal pm).2.dirtySprGroups = ∅
          ∧ (PaletteManager.update bgPal sprPal pm).1 = true))
      ∧ (((∀ j : Fin 16, j ≠ i → (sprPal j : Int) = pm.prevSpr j)
          ∧ (sprPal i : Int) ≠ pm.prevSpr i
          ∧ (∀ j : Fin 16, (bgPal j : Int) = pm.prevBg j)) →
        ((PaletteManager.update bgPal sprPal pm).2.dirtySprGroups = {i.val / 4}
          ∧ (PaletteManager.update bgPal sprPal pm).2.dirtyBgGroups = ∅
          ∧ (PaletteManager.update bgPal sprPal pm).1 = true)) := by
  intro pm bgPal sprPal i
  have hdiv : i.val >>> 2 = i.val / 4 := by
    rw [Nat.shiftRight_eq_div_pow]
  constructor
  · rintro ⟨hother, hi, hspr⟩
    have hbg : (PaletteManager.update bgPal sprPal pm).2.dirtyBgGroups = {i.val / 4} := by
      ext g
      rw [PaletteManager.update_dirtyBg_mem, Finset.mem_singleton]
      constructor
      · rintro ⟨j, hne, hg⟩
        by_cases hj : j = i
        · subst hj
          rw [hg, hdiv]
        · exact absurd (hother j hj) hne
      · intro hg
        exact ⟨i, hi, by rw [hg, hdiv]⟩
    have hsprE : (PaletteManager.update bgPal sprPal pm).2.dirtySprGroups = ∅ := by
      ext g
      simp [PaletteManager.update_dirtySpr_mem, hspr]
    refine ⟨hbg, hsprE, ?_⟩
    rw [PaletteManager.update_fst, hbg, hsprE]
    simp
  · rintro ⟨hother, hi, hbgAll⟩
    have hspr : (PaletteManager.update bgPal sprPal pm).2.dirtySprGroups = {i.val / 4} := by
      ext g
      rw [PaletteManager.update_dirtySpr_mem, Finset.mem_singleton]
      constructor
      · rintro ⟨j, hne, hg⟩
        by_cases hj : j = i
        · subst hj
          rw [hg, hdiv]
        · exact absurd (hother j hj) hne
      · intro hg
        exact ⟨i, hi, by rw [hg, hdiv]⟩
    have hbgE : (PaletteManager.update bgPal sprPal pm).2.dirtyBgGroups = ∅ := by
      ext g
      simp [PaletteManager.update_dirtyBg_mem, hbgAll]
    refine ⟨hspr, hbgE, ?_⟩
    rw [PaletteManager.update_fst, hspr, hbgE]
    simp

/-- Concrete palette-manager state for the C4 witness: stored previous
values all 5, with stale nonempty dirty sets left over from an earlier
frame. -/
def paletteStateW : PaletteManager.State :=
  ⟨fun _ => 5, fun _ => 5, fun _ => 0, fun _ => 0, {0}, {3}⟩

/-- Witness for C4: changing only background entry 9 (5 → 7) marks
exactly background group 2 dirty, leaves the sprite set empty despite its
stale contents, and reports a change. -/
theorem C4_witness :
    (PaletteManager.update (fun j => if j = 9 then 7 else 5) (fun _ => 5) paletteStateW).2.dirtyBgGroups = {(9 : Fin 16).val / 4}
    ∧ (PaletteManager.update (fun j => if j = 9 then 7 else 5) (fun _ => 5) paletteStateW).2.dirtySprGroups = ∅
    ∧ (PaletteManager.update (fun j => if j = 9 then 7 else 5) (fun _ => 5) paletteStateW).1 = true :=
  (C4_palette_single_entry_delta paletteStateW (fun j => if j = 9 then 7 else 5) (fun _ => 5) 9).1
    ⟨by decide, by decide, by decide⟩

/-! ### CHR checksum scan and bank-signature characterization -/

namespace TileCache

/-- Helper predicate for reasoning about the scan: whether slot `i` would
record a new checksum relative to the checksum table `cs`. -/
def chrChanged (ptTile : Fin 512 → Option Tile) (cs : Fin 512 → Nat) (i : Fin 512) : Bool :=
  match ptTile i with
  | none => false
  | some t => decide (hashPix t.pix ≠ cs i)

lemma chrStep_fst (ptTile : Fin 512 → Option Tile) (acc : Bool × Bool × (Fin 512 → Nat)) (i : Fin 512) :
    (chrStep ptTile acc i).1 = (acc.1 || (chrChanged ptTile acc.2.2 i && decide (i.val < 256))) := by
  unfold chrStep chrChanged
  cases h : ptTile i
  · simp
  · simp only
    split_ifs with hc <;> simp [hc]

lemma chrStep_snd (ptTile : Fin 512 → Option Tile) (acc : Bool × Bool × (Fin 512 → Nat)) (i : Fin 512) :
    (chrStep ptTile acc i).2.1 = (acc.2.1 || (chrChanged ptTile acc.2.2 i && decide (256 ≤ i.val))) := by
  unfold chrStep chrChanged
  cases h : ptTile i
  · simp
  · simp only
    split_ifs with hc <;> simp [hc]

lemma chrStep_checksums_self (ptTile : Fin 512 → Option Tile) (acc : Bool × Bool × (Fin 512 → Nat)) (i : Fin 512) :
    (chrStep ptTile acc i).2.2 i
      = (match ptTile i with
         | some t => hashPix t.pix
         | none => acc.2.2 i) := by
  unfold chrStep
  cases h : ptTile i
  · simp
  · simp only
    split_ifs with hc
    · simp [Function.update_same]
    · simp only [ne_eq, not_not] at hc
      exact hc.symm

lemma chrStep_checksums_other (ptTile : Fin 512 → Option Tile) (acc : Bool × Bool × (Fin 512 → Nat)) {i j : Fin 512} (hne : j ≠ i) :
    (chrStep ptTile acc i).2.2 j = acc.2.2 j := by
  unfold chrStep
  cases h : ptTile i
  · simp
  · simp only
    split_ifs with hc
    · simp [Function.update_noteq hne]
    · rfl

lemma list_any_congr {α : Type} (l : List α) (f g : α → Bool)
    (h : ∀ x ∈ l, f x = g x) : l.any f = l.any g := by
  induction l with
  | nil => rfl
  | cons x xs ih =>
    rw [List.any_cons, List.any_cons, h x (List.mem_cons_self x xs),
      ih fun y hy => h y (List.mem_cons_of_mem x hy)]

lemma chr_foldl_checksums (ptTile : Fin 512 → Option Tile) (l : List (Fin 512)) :
    ∀ (acc : Bool × Bool × (Fin 512 → Nat)) (j : Fin 512),
      ((l.foldl (chrStep ptTile) acc).2.2) j
        = (match ptTile j with
           | some t => if j ∈ l then hashPix t.pix else acc.2.2 j
           | none => acc.2.2 j) := by
  induction l with
  | nil =>
    intro acc j
    cases ptTile j <;> simp
  | cons x xs ih =>
    intro acc j
    rw [List.foldl_cons, ih]
    cases hpt : ptTile j
    · simp only
      by_cases hx : j = x
      · subst hx
        rw [chrStep_checksums_self, hpt]
      · rw [chrStep_checksums_other ptTile acc hx]
    · simp only
      by_cases hxs : j ∈ xs
      · simp [hxs, List.mem_cons]
      · by_cases hx : j = x
        · subst hx
          rw [chrStep_checksums_self, hpt]
          simp [hxs, List.mem_cons]
        · rw [chrStep_checksums_other ptTile acc hx]
          simp [hxs, hx, List.mem_cons]

lemma chr_foldl_fst (ptTile : Fin 512 → Option Tile) (l : List (Fin 512)) (hl : l.Nodup) :
    ∀ (acc : Bool × Bool × (Fin 512 → Nat)),
      (l.foldl (chrStep ptTile) acc).1
        = (acc.1 || l.any fun i => chrChanged ptTile acc.2.2 i && decide (i.val < 256)) := by
  induction l with
  | nil => intro acc; simp
  | cons x xs ih =>
    intro acc
    rw [List.nodup_cons] at hl
    rw [List.foldl_cons, ih hl.2, chrStep_fst, List.any_cons]
    have hcong : (xs.any fun i => chrChanged ptTile (chrStep ptTile acc x).2.2 i && decide (i.val < 256))
        = (xs.any fun i => chrChanged ptTile acc.2.2 i && decide (i.val < 256)) := by
      refine list_any_congr xs _ _ fun j hj => ?_
      have hne : j ≠ x := fun he => hl.1 (he ▸ hj)
      unfold chrChanged
      rw [chrStep_checksums_other ptTile acc hne]
    rw [hcong, Bool.or_assoc]

lemma chr_foldl_snd (ptTile : Fin 512 → Option Tile) (l : List (Fin 512)) (hl : l.Nodup) :
    ∀ (acc : Bool × Bool × (Fin 512 → Nat)),
      (l.foldl (chrStep ptTile) acc).2.1
        = (acc.2.1 || l.any fun i => chrChanged ptTile acc.2.2 i && decide (256 ≤ i.val)) := by
  induction l with
  | nil => intro acc; simp
  | cons x xs ih =>
    intro acc
    rw [List.nodup_cons] at hl
    rw [List.foldl_cons, ih hl.2, chrStep_snd, List.any_cons]
    have hcong : (xs.any fun i => chrChanged ptTile (chrStep ptTile acc x).2.2 i && decide (256 ≤ i.val))
        = (xs.any fun i => chrChanged ptTile acc.2.2 i && decide (256 ≤ i.val)) := by
      refine list_any_congr xs _ _ fun j hj => ?_
      have hne : j ≠ x := fun he => hl.1 (he ▸ hj)
      unfold chrChanged
      rw [chrStep_checksums_other ptTile acc hne]
    rw [hcong, Bool.or_assoc]

lemma checkCHRDirty_fst (ptTile : Fin 512 → Option Tile) (cs : Fin 512 → Nat) :
    (checkCHRDirty ptTile cs).1
      = (List.finRange 512).any fun i => chrChanged ptTile cs i && decide (i.val < 256) := by
  unfold checkCHRDirty
  rw [chr_foldl_fst ptTile _ (List.nodup_finRange 512)]
  simp

lemma checkCHRDirty_snd (ptTile : Fin 512 → Option Tile) (cs : Fin 512 → Nat) :
    (checkCHRDirty ptTile cs).2.1
      = (List.finRange 512).any fun i => chrChanged ptTile cs i && decide (256 ≤ i.val) := by
  unfold checkCHRDirty
  rw [chr_foldl_snd ptTile _ (List.nodup_finRange 512)]
  simp

lemma checkCHRDirty_checksums (ptTile : Fin 512 → Option Tile) (cs : Fin 512 → Nat) (j : Fin 512) :
    (checkCHRDirty ptTile cs).2.2 j
      = (match ptTile j with
         | some t => hashPix t.pix
         | none => cs j) := by
  unfold checkCHRDirty
  rw [chr_foldl_checksums]
  cases ptTile j <;> simp [List.mem_finRange]

lemma checkBankDirty_false_iff (sig : Nat → Ref) (ptBase : Nat) (prev : Nat → Ref) :
    (checkBankDirty sig ptBase prev = false
      ↔ ∀ i < 4, sig ((if 256 ≤ ptBase then 4 else 0) + i) = prev ((if 256 ≤ ptBase then 4 else 0) + i)) := by
  unfold checkBankDirty
  rw [List.any_eq_false]
  simp [List.mem_range]

lemma checkBankDirty_true_iff (sig : Nat → Ref) (ptBase : Nat) (prev : Nat → Ref) :
    (checkBankDirty sig ptBase prev = true
      ↔ ∃ i < 4, sig ((if 256 ≤ ptBase then 4 else 0) + i) ≠ prev ((if 256 ≤ ptBase then 4 else 0) + i)) := by
  unfold checkBankDirty
  rw [List.any_eq_true]
  simp [List.mem_range]

lemma checkBankDirty_updateBankRefs (sig : Nat → Ref) (ptBase : Nat) (prev : Nat → Ref) :
    checkBankDirty sig ptBase (updateBankRefs sig prev) = false := by
  rw [checkBankDirty_false_iff]
  intro i hi
  unfold updateBankRefs
  rcases le_or_lt 256 ptBase with h | h
  · rw [if_pos h, if_pos (show 4 + i < 8 by omega)]
  · rw [if_neg (Nat.not_le.mpr h), if_pos (show 0 + i < 8 by omega)]

set_option maxRecDepth 4096 in
lemma update_prevBankRefs (ptTile : Fin 512 → Option Tile) (pm : PaletteManager.State)
    (bgBase sprBase : Nat) (sig : Nat → Ref) (st : State) :
    (update ptTile pm bgBase sprBase (some sig) st).prevBankRefs
      = updateBankRefs sig st.prevBankRefs := rfl

set_option maxRecDepth 4096 in
lemma update_tileChecksums (ptTile : Fin 512 → Option Tile) (pm : PaletteManager.State)
    (bgBase sprBase : Nat) (csig : Option (Nat → Ref)) (st : State) :
    (update ptTile pm bgBase sprBase csig st).tileChecksums
      = (checkCHRDirty ptTile st.tileChecksums).2.2 := by
  cases csig <;> rfl

set_option maxRecDepth 4096 in
lemma update_prevBgBase (ptTile : Fin 512 → Option Tile) (pm : PaletteManager.State)
    (bgBase sprBase : Nat) (csig : Option (Nat → Ref)) (st : State) :
    (update ptTile pm bgBase sprBase csig st).prevBgBase = (bgBase : Int) := by
  cases csig <;> rfl

set_option maxRecDepth 8192 in
lemma update_updatedSheets (ptTile : Fin 512 → Option Tile) (pm : PaletteManager.State)
    (bgBase sprBase : Nat) (sig : Nat → Ref) (st : State) :
    (update ptTile pm bgBase sprBase (some sig) st).updatedSheets
      = ((Finset.range 4).filter fun palGroup => palGroup ∈ pm.dirtyBgGroups
            ∨ (checkBankDirty sig bgBase st.prevBankRefs
               || (if (if 256 ≤ bgBase then 1 else 0) = 0
                   then (checkCHRDirty ptTile st.tileChecksums).1
                   else (checkCHRDirty ptTile st.tileChecksums).2.1)) = true
            ∨ decide ((bgBase : Int) ≠ st.prevBgBase) = true)
        ∪ (((Finset.range 4).filter fun palGroup => palGroup ∈ pm.dirtySprGroups
            ∨ (checkBankDirty sig 0 st.prevBankRefs
               || (checkCHRDirty ptTile st.tileChecksums).1) = true).image fun palGroup => 4 + palGroup)
        ∪ (((Finset.range 4).filter fun palGroup => palGroup ∈ pm.dirtySprGroups
            ∨ (checkBankDirty sig 256 st.prevBankRefs
               || (checkCHRDirty ptTile st.tileChecksums).2.1) = true).image fun palGroup => 8 + palGroup) := rfl

set_option maxRecDepth 8192 in
lemma update_updatedSheets_flags (ptTile : Fin 512 → Option Tile) (pm : PaletteManager.State)
    (bgBase sprBase : Nat) (sig : Nat → Ref) (st : State)
    (bgBank spr0Bank spr1Bank pt0 pt1 bc : Bool)
    (h1 : checkBankDirty sig bgBase st.prevBankRefs = bgBank)
    (h2 : checkBankDirty sig 0 st.prevBankRefs = spr0Bank)
    (h3 : checkBankDirty sig 256 st.prevBankRefs = spr1Bank)
    (h4 : (checkCHRDirty ptTile st.tileChecksums).1 = pt0)
    (h5 : (checkCHRDirty ptTile st.tileChecksums).2.1 = pt1)
    (h6 : decide ((bgBase : Int) ≠ st.prevBgBase) = bc) :
    (update ptTile pm bgBase sprBase (some sig) st).updatedSheets
      = ((Finset.range 4).filter fun palGroup => palGroup ∈ pm.dirtyBgGroups
            ∨ (bgBank || (if (if 256 ≤ bgBase then 1 else 0) = 0 then pt0 else pt1)) = true
            ∨ bc = true)
        ∪ (((Finset.range 4).filter fun palGroup => palGroup ∈ pm.dirtySprGroups
            ∨ (spr0Bank || pt0) = true).image fun palGroup => 4 + palGroup)
        ∪ (((Finset.range 4).filter fun palGroup => palGroup ∈ pm.dirtySprGroups
            ∨ (spr1Bank || pt1) = true).image fun palGroup => 8 + palGroup) := by
  rw [update_updatedSheets]
  simp only [h1, h2, h3, h4, h5, h6]

end TileCache

/-! ### First-call / second-call behavior of the sheet cache -/

/-- C1: on a freshly constructed tile-sheet cache and a freshly
initialized palette tracker, the first `TileCache.update` call (512
populated tile records with their extracted bank signature) regenerates
all 12 sheets; a second call with fully identical inputs — same tile
references and pixel contents, same signature, same pattern-table bases,
palette tracker updated again with the same palettes — regenerates zero
sheets. -/
theorem C1_first_call_all_second_call_none :
    ∀ (ptTile : Fin 512 → Option Tile) (bgPal sprPal : Fin 16 → Nat) (bgBase sprBase : Nat),
      (∀ i : Fin 512, (ptTile i).isSome = true) →
      (TileCache.update ptTile (PaletteManager.update bgPal sprPal PaletteManager.init).2
          bgBase sprBase (some (PPUStateExtractor.extractCHRBankSignature ptTile))
          TileCache.init).updatedSheets = Finset.range 12
      ∧ (TileCache.update ptTile
          (PaletteManager.update bgPal sprPal (PaletteManager.update bgPal sprPal PaletteManager.init).2).2
          bgBase sprBase (some (PPUStateExtractor.extractCHRBankSignature ptTile))
          (TileCache.update ptTile (PaletteManager.update bgPal sprPal PaletteManager.init).2
            bgBase sprBase (some (PPUStateExtractor.extractCHRBankSignature ptTile))
            TileCache.init)).updatedSheets = ∅ := by
  intro ptTile bgPal sprPal bgBase sprBase hpop
  set sig := PPUStateExtractor.extractCHRBankSignature ptTile with hsig
  set pm1 := (PaletteManager.update bgPal sprPal PaletteManager.init).2 with hpm1
  set st1 := TileCache.update ptTile pm1 bgBase sprBase (some sig) TileCache.init with hst1
  set pm2 := (PaletteManager.update bgPal sprPal pm1).2 with hpm2
  have hsprDirty : ∀ g, g < 4 → g ∈ pm1.dirtySprGroups := by
    intro g hg
    rw [hpm1, PaletteManager.update_dirtySpr_mem]
    refine ⟨⟨4 * g, by omega⟩, ?_, ?_⟩
    · show (sprPal _ : Int) ≠ PaletteManager.init.prevSpr _
      show (sprPal _ : Int) ≠ -1
      omega
    · show g = (4 * g) >>> 2
      rw [Nat.shiftRight_eq_div_pow]
      omega
  have hbaseChanged : decide ((bgBase : Int) ≠ TileCache.init.prevBgBase) = true := by
    have h1 : TileCache.init.prevBgBase = -1 := rfl
    rw [h1, decide_eq_true_eq]
    omega
  constructor
  · have hbankAll : ∀ ptBase : Nat,
        TileCache.checkBankDirty sig ptBase TileCache.init.prevBankRefs = true := by
      intro ptBase
      rw [TileCache.checkBankDirty_true_iff]
      refine ⟨0, by omega, ?_⟩
      have hnull : TileCache.init.prevBankRefs ((if 256 ≤ ptBase then 4 else 0) + 0) = Ref.null := rfl
      rw [hnull, hsig]
      unfold PPUStateExtractor.extractCHRBankSignature
      rcases le_or_lt 256 ptBase with h | h
      · rw [if_pos h, dif_pos (show 4 * 64 < 512 by omega)]
        obtain ⟨t, ht⟩ := Option.isSome_iff_exists.mp (hpop ⟨4 * 64, by omega⟩)
        rw [ht]
        simp
      · rw [if_neg (Nat.not_le.mpr h), dif_pos (show 0 * 64 < 512 by omega)]
        obtain ⟨t, ht⟩ := Option.isSome_iff_exists.mp (hpop ⟨0 * 64, by omega⟩)
        rw [ht]
        simp
    rw [hst1, TileCache.update_updatedSheets_flags ptTile pm1 bgBase sprBase sig
      TileCache.init true true true _ _ true
      (hbankAll bgBase) (hbankAll 0) (hbankAll 256) rfl rfl hbaseChanged]
    simp only [Bool.true_or]
    rw [Finset.filter_true_of_mem fun g hg => Or.inr (Or.inl trivial)]
    rw [Finset.filter_true_of_mem fun g hg => Or.inr trivial]
    decide
  · have hdirtyBg2 : pm2.dirtyBgGroups = ∅ := by
      ext g
      rw [hpm2, PaletteManager.update_dirtyBg_mem]
      simp [hpm1, PaletteManager.update_prevBg]
    have hdirtySpr2 : pm2.dirtySprGroups = ∅ := by
      ext g
      rw [hpm2, PaletteManager.update_dirtySpr_mem]
      simp [hpm1, PaletteManager.update_prevSpr]
    have hbank : ∀ ptBase, TileCache.checkBankDirty sig ptBase st1.prevBankRefs = false := by
      intro ptBase
      rw [hst1, TileCache.update_prevBankRefs]
      exact TileCache.checkBankDirty_updateBankRefs sig ptBase TileCache.init.prevBankRefs
    have hchrChanged : ∀ i, TileCache.chrChanged ptTile st1.tileChecksums i = false := by
      intro i
      unfold TileCache.chrChanged
      cases hpt : ptTile i with
      | none => rfl
      | some t =>
        simp only
        rw [hst1, TileCache.update_tileChecksums, TileCache.checkCHRDirty_checksums, hpt]
        simp
    have hchr1 : (TileCache.checkCHRDirty ptTile st1.tileChecksums).1 = false := by
      rw [TileCache.checkCHRDirty_fst, List.any_eq_false]
      intro i _
      simp [hchrChanged i]
    have hchr2 : (TileCache.checkCHRDirty ptTile st1.tileChecksums).2.1 = false := by
      rw [TileCache.checkCHRDirty_snd, List.any_eq_false]
      intro i _
      simp [hchrChanged i]
    have hbase2 : decide ((bgBase : Int) ≠ st1.prevBgBase) = false := by
      rw [hst1, TileCache.update_prevBgBase]
      simp
    rw [TileCache.update_updatedSheets_flags ptTile pm2 bgBase sprBase sig st1
      false false false false false false
      (hbank bgBase) (hbank 0) (hbank 256) hchr1 hchr2 hbase2]
    simp [hdirtyBg2, hdirtySpr2]

namespace PPUStateExtractor

lemma extract_agree_high {ptTile1 ptTile2 : Fin 512 → Option Tile}
    (h : ∀ i : Fin 512, 64 ≤ i.val → ptTile2 i = ptTile1 i) :
    ∀ k, 1 ≤ k → extractCHRBankSignature ptTile2 k = extractCHRBankSignature ptTile1 k := by
  intro k hk
  unfold extractCHRBankSignature
  by_cases hlt : k * 64 < 512
  · rw [dif_pos hlt, dif_pos hlt, h ⟨k * 64, hlt⟩ (by simp only; omega)]
  · rw [dif_neg hlt, dif_neg hlt]

lemma extract_agree_low {ptTile1 ptTile2 : Fin 512 → Option Tile}
    (h : ∀ i : Fin 512, i.val < 256 → ptTile2 i = ptTile1 i) :
    ∀ k, k < 4 → extractCHRBankSignature ptTile2 k = extractCHRBankSignature ptTile1 k := by
  intro k hk
  unfold extractCHRBankSignature
  have hlt : k * 64 < 512 := by omega
  rw [dif_pos hlt, dif_pos hlt, h ⟨k * 64, hlt⟩ (by simp only; omega)]

end PPUStateExtractor

/-- Concrete populated tile table for the C1 witness. -/
def tilesW : Fin 512 → Option Tile := fun _ => some ⟨1, List.replicate 64 0⟩

/-- Witness for C1: at an all-populated tile table, zero palettes and
base 0, the first call regenerates all 12 sheets and the identical second
call regenerates none. -/
theorem C1_witness :
    (TileCache.update tilesW (PaletteManager.update (fun _ => 0) (fun _ => 0) PaletteManager.init).2
        0 0 (some (PPUStateExtractor.extractCHRBankSignature tilesW))
        TileCache.init).updatedSheets = Finset.range 12
    ∧ (TileCache.update tilesW
        (PaletteManager.update (fun _ => 0) (fun _ => 0) (PaletteManager.update (fun _ => 0) (fun _ => 0) PaletteManager.init).2).2
        0 0 (some (PPUStateExtractor.extractCHRBankSignature tilesW))
        (TileCache.update tilesW (PaletteManager.update (fun _ => 0) (fun _ => 0) PaletteManager.init).2
          0 0 (some (PPUStateExtractor.extractCHRBankSignature tilesW))
          TileCache.init)).updatedSheets = ∅ :=
  C1_first_call_all_second_call_none tilesW (fun _ => 0) (fun _ => 0) 0 0 fun _ => rfl

/-- C2: between two consecutive `TileCache.update` calls with unchanged
palettes (the tracker is updated again with the same values) and an
unchanged background base selecting bank 0, replacing the tile records of
1KB region 0 with new identities — so the sampled signature slot 0
differs — makes the second call regenerate exactly the sheets of the
banks containing that region: all four background sheets and all four
sprite-bank-0 sheets (indices 0–7), and no sprite-bank-1 sheet. -/
theorem C2_region_switch_dirties_owning_banks :
    ∀ (st0 : TileCache.State) (pm0 : PaletteManager.State)
      (ptTile1 ptTile2 : Fin 512 → Option Tile) (bgPal sprPal : Fin 16 → Nat)
      (bgBase sprBase : Nat) (st2 : TileCache.State),
      bgBase < 256 →
      (∀ i : Fin 512, 64 ≤ i.val → ptTile2 i = ptTile1 i) →
      PPUStateExtractor.extractCHRBankSignature ptTile2 0
        ≠ PPUStateExtractor.extractCHRBankSignature ptTile1 0 →
      st2 = TileCache.update ptTile2
          (PaletteManager.update bgPal sprPal (PaletteManager.update bgPal sprPal pm0).2).2
          bgBase sprBase (some (PPUStateExtractor.extractCHRBankSignature ptTile2))
          (TileCache.update ptTile1 (PaletteManager.update bgPal sprPal pm0).2
            bgBase sprBase (some (PPUStateExtractor.extractCHRBankSignature ptTile1)) st0) →
      st2.updatedSheets = Finset.range 8
      ∧ (∀ g, g < 4 →
          g ∈ st2.updatedSheets ∧ 4 + g ∈ st2.updatedSheets ∧ 8 + g ∉ st2.updatedSheets) := by
  intro st0 pm0 ptTile1 ptTile2 bgPal sprPal bgBase sprBase st2 hlt256 h64 hsigd hst2
  set sig1 := PPUStateExtractor.extractCHRBankSignature ptTile1 with hsig1
  set sig2 := PPUStateExtractor.extractCHRBankSignature ptTile2 with hsig2
  set pm1 := (PaletteManager.update bgPal sprPal pm0).2 with hpm1
  set pm2 := (PaletteManager.update bgPal sprPal pm1).2 with hpm2
  set st1 := TileCache.update ptTile1 pm1 bgBase sprBase (some sig1) st0 with hst1
  have hdirtyBg2 : pm2.dirtyBgGroups = ∅ := by
    ext g
    rw [hpm2, PaletteManager.update_dirtyBg_mem]
    simp [hpm1, PaletteManager.update_prevBg]
  have hdirtySpr2 : pm2.dirtySprGroups = ∅ := by
    ext g
    rw [hpm2, PaletteManager.update_dirtySpr_mem]
    simp [hpm1, PaletteManager.update_prevSpr]
  have hbgBank : TileCache.checkBankDirty sig2 bgBase st1.prevBankRefs = true := by
    rw [hst1, TileCache.update_prevBankRefs, TileCache.checkBankDirty_true_iff]
    refine ⟨0, by omega, ?_⟩
    rw [if_neg (Nat.not_le.mpr hlt256)]
    unfold TileCache.updateBankRefs
    rw [if_pos (by omega : 0 + 0 < 8)]
    simpa using hsigd
  have hspr0Bank : TileCache.checkBankDirty sig2 0 st1.prevBankRefs = true := by
    rw [hst1, TileCache.update_prevBankRefs, TileCache.checkBankDirty_true_iff]
    refine ⟨0, by omega, ?_⟩
    rw [if_neg (by omega : ¬ 256 ≤ 0)]
    unfold TileCache.updateBankRefs
    rw [if_pos (by omega : 0 + 0 < 8)]
    simpa using hsigd
  have hspr1Bank : TileCache.checkBankDirty sig2 256 st1.prevBankRefs = false := by
    rw [hst1, TileCache.update_prevBankRefs, TileCache.checkBankDirty_false_iff]
    intro i hi
    rw [if_pos (by omega : 256 ≤ 256)]
    unfold TileCache.updateBankRefs
    rw [if_pos (by omega : 4 + i < 8)]
    exact PPUStateExtractor.extract_agree_high h64 (4 + i) (by omega)
  have hpt1 : (TileCache.checkCHRDirty ptTile2 st1.tileChecksums).2.1 = false := by
    rw [TileCache.checkCHRDirty_snd, List.any_eq_false]
    intro i _
    intro hand
    rw [Bool.and_eq_true, decide_eq_true_eq] at hand
    obtain ⟨hc, h256⟩ := hand
    have hcf : TileCache.chrChanged ptTile2 st1.tileChecksums i = false := by
      unfold TileCache.chrChanged
      rw [h64 i (by omega)]
      cases hpt : ptTile1 i with
      | none => rfl
      | some t =>
        simp only
        rw [hst1, TileCache.update_tileChecksums, TileCache.checkCHRDirty_checksums, hpt]
        simp
    rw [hcf] at hc
    exact Bool.false_ne_true hc
  have hbase2 : decide ((bgBase : Int) ≠ st1.prevBgBase) = false := by
    rw [hst1, TileCache.update_prevBgBase]
    simp
  have hmain : st2.updatedSheets = Finset.range 8 := by
    rw [hst2, TileCache.update_updatedSheets_flags ptTile2 pm2 bgBase sprBase sig2 st1
      true true false _ false false hbgBank hspr0Bank hspr1Bank rfl hpt1 hbase2]
    simp only [Bool.true_or, Bool.false_or]
    rw [Finset.filter_true_of_mem fun g hg => Or.inr (Or.inl trivial)]
    rw [Finset.filter_true_of_mem fun g hg => Or.inr trivial]
    rw [Finset.filter_false_of_mem fun g hg => by
      rw [hdirtySpr2]
      simp]
    decide
  refine ⟨hmain, ?_⟩
  intro g hg
  rw [hmain]
  simp only [Finset.mem_range]
  omega

/-- Tile table for the C2 witness: region 0 (tiles 0–63) replaced with
fresh tile objects, the rest aliasing `tilesW`. -/
def tilesW2 : Fin 512 → Option Tile :=
  fun i => if i.val < 64 then some ⟨2, List.replicate 64 0⟩ else tilesW i

/-- Witness for C2: with region 0 of bank 0 swapped between the calls,
the second call regenerates exactly sheets 0–7. -/
theorem C2_witness :
    (TileCache.update tilesW2
        (PaletteManager.update (fun _ => 0) (fun _ => 0) (PaletteManager.update (fun _ => 0) (fun _ => 0) PaletteManager.init).2).2
        0 0 (some (PPUStateExtractor.extractCHRBankSignature tilesW2))
        (TileCache.update tilesW (PaletteManager.update (fun _ => 0) (fun _ => 0) PaletteManager.init).2
          0 0 (some (PPUStateExtractor.extractCHRBankSignature tilesW))
          TileCache.init)).updatedSheets = Finset.range 8 :=
  (C2_region_switch_dirties_owning_banks TileCache.init PaletteManager.init
    tilesW tilesW2 (fun _ => 0) (fun _ => 0) 0 0 _
    (by omega)
    (fun i h => by unfold tilesW2; rw [if_neg (by omega)])
    (by decide)
    rfl).1

/-- C10: `sprSheetUpdated(g)` reports an update exactly when the bank-0
or the bank-1 sprite sheet of group `g` was regenerated this frame — the
two banks are collapsed into one answer.  In particular, in a frame where
only bank 1 was switched (sampled signature slot 4 changed, tiles below
256 untouched, palettes and background base unchanged with the base
selecting bank 0), only sheets 8–11 regenerate, yet the query reports an
update for every group while the background query reports none. -/
theorem C10_sprSheetUpdated_bank_collapse :
    ∀ (st : TileCache.State) (g : Nat)
      (st0 : TileCache.State) (pm0 : PaletteManager.State)
      (ptTile1 ptTile2 : Fin 512 → Option Tile) (bgPal sprPal : Fin 16 → Nat)
      (bgBase sprBase : Nat) (st2 : TileCache.State),
      (TileCache.sprSheetUpdated st g = true
        ↔ (4 + g ∈ st.updatedSheets ∨ 8 + g ∈ st.updatedSheets))
      ∧ (bgBase < 256 →
         (∀ i : Fin 512, i.val < 256 → ptTile2 i = ptTile1 i) →
         PPUStateExtractor.extractCHRBankSignature ptTile2 4
           ≠ PPUStateExtractor.extractCHRBankSignature ptTile1 4 →
         st2 = TileCache.update ptTile2
             (PaletteManager.update bgPal sprPal (PaletteManager.update bgPal sprPal pm0).2).2
             bgBase sprBase (some (PPUStateExtractor.extractCHRBankSignature ptTile2))
             (TileCache.update ptTile1 (PaletteManager.update bgPal sprPal pm0).2
               bgBase sprBase (some (PPUStateExtractor.extractCHRBankSignature ptTile1)) st0) →
         (st2.updatedSheets = (Finset.range 4).image fun g' => 8 + g')
           ∧ (∀ g', g' < 4 →
               TileCache.sprSheetUpdated st2 g' = true
               ∧ TileCache.bgSheetUpdated st2 g' = false)) := by
  intro st g st0 pm0 ptTile1 ptTile2 bgPal sprPal bgBase sprBase st2
  constructor
  · unfold TileCache.sprSheetUpdated
    simp
  · intro hlt256 h256 hsigd hst2
    set sig1 := PPUStateExtractor.extractCHRBankSignature ptTile1 with hsig1
    set sig2 := PPUStateExtractor.extractCHRBankSignature ptTile2 with hsig2
    set pm1 := (PaletteManager.update bgPal sprPal pm0).2 with hpm1
    set pm2 := (PaletteManager.update bgPal sprPal pm1).2 with hpm2
    set st1 := TileCache.update ptTile1 pm1 bgBase sprBase (some sig1) st0 with hst1
    have hdirtyBg2 : pm2.dirtyBgGroups = ∅ := by
      ext g'
      rw [hpm2, PaletteManager.update_dirtyBg_mem]
      simp [hpm1, PaletteManager.update_prevBg]
    have hdirtySpr2 : pm2.dirtySprGroups = ∅ := by
      ext g'
      rw [hpm2, PaletteManager.update_dirtySpr_mem]
      simp [hpm1, PaletteManager.update_prevSpr]
    have hbgBank : TileCache.checkBankDirty sig2 bgBase st1.prevBankRefs = false := by
      rw [hst1, TileCache.update_prevBankRefs, TileCache.checkBankDirty_false_iff]
      intro i hi
      rw [if_neg (Nat.not_le.mpr hlt256)]
      unfold TileCache.updateBankRefs
      rw [if_pos (by omega : 0 + i < 8)]
      exact PPUStateExtractor.extract_agree_low h256 (0 + i) (by omega)
    have hspr0Bank : TileCache.checkBankDirty sig2 0 st1.prevBankRefs = false := by
      rw [hst1, TileCache.update_prevBankRefs, TileCache.checkBankDirty_false_iff]
      intro i hi
      rw [if_neg (by omega : ¬ 256 ≤ 0)]
      unfold TileCache.updateBankRefs
      rw [if_pos (by omega : 0 + i < 8)]
      exact PPUStateExtractor.extract_agree_low h256 (0 + i) (by omega)
    have hspr1Bank : TileCache.checkBankDirty sig2 256 st1.prevBankRefs = true := by
      rw [hst1, TileCache.update_prevBankRefs, TileCache.checkBankDirty_true_iff]
      refine ⟨0, by omega, ?_⟩
      rw [if_pos (by omega : 256 ≤ 256)]
      unfold TileCache.updateBankRefs
      rw [if_pos (by omega : 4 + 0 < 8)]
      simpa using hsigd
    have hpt0 : (TileCache.checkCHRDirty ptTile2 st1.tileChecksums).1 = false := by
      rw [TileCache.checkCHRDirty_fst, List.any_eq_false]
      intro i _
      intro hand
      rw [Bool.and_eq_true, decide_eq_true_eq] at hand
      obtain ⟨hc, hi256⟩ := hand
      have hcf : TileCache.chrChanged ptTile2 st1.tileChecksums i = false := by
        unfold TileCache.chrChanged
        rw [h256 i hi256]
        cases hpt : ptTile1 i with
        | none => rfl
        | some t =>
          simp only
          rw [hst1, TileCache.update_tileChecksums, TileCache.checkCHRDirty_checksums, hpt]
          simp
      rw [hcf] at hc
      exact Bool.false_ne_true hc
    have hbase2 : decide ((bgBase : Int) ≠ st1.prevBgBase) = false := by
      rw [hst1, TileCache.update_prevBgBase]
      simp
    have hbg0 : (if 256 ≤ bgBase then 1 else 0) = 0 := if_neg (Nat.not_le.mpr hlt256)
    have hmain : st2.updatedSheets = (Finset.range 4).image fun g' => 8 + g' := by
      rw [hst2, TileCache.update_updatedSheets_flags ptTile2 pm2 bgBase sprBase sig2 st1
        false false true false _ false hbgBank hspr0Bank hspr1Bank hpt0 rfl hbase2]
      rw [Finset.filter_false_of_mem fun g' hg' => by
        rw [hdirtyBg2, hbg0]
        simp]
      rw [Finset.filter_false_of_mem fun g' hg' => by
        rw [hdirtySpr2]
        simp]
      rw [Finset.filter_true_of_mem fun g' hg' => Or.inr (by simp)]
      simp
    refine ⟨hmain, ?_⟩
    intro g' hg'
    constructor
    · unfold TileCache.sprSheetUpdated
      rw [hmain]
      simp only [Bool.or_eq_true, decide_eq_true_eq, Finset.mem_image, Finset.mem_range]
      exact Or.inr ⟨g', hg', rfl⟩
    · unfold TileCache.bgSheetUpdated
      rw [hmain]
      simp only [decide_eq_false_iff_not, Finset.mem_image, Finset.mem_range]
      rintro ⟨a, ha, hae⟩
      omega

/-- Tile table for the C10 witness: region 4 (tiles 256–319, the first
1KB region of bank 1) replaced with fresh tile objects. -/
def tilesW3 : Fin 512 → Option Tile :=
  fun i => if 256 ≤ i.val ∧ i.val < 320 then some ⟨3, List.replicate 64 0⟩ else tilesW i

/-- Cache state for the C10 witness: second frame after swapping bank-1
region 4 only. -/
def c10StateW : TileCache.State :=
  TileCache.update tilesW3
    (PaletteManager.update (fun _ => 0) (fun _ => 0) (PaletteManager.update (fun _ => 0) (fun _ => 0) PaletteManager.init).2).2
    0 0 (some (PPUStateExtractor.extractCHRBankSignature tilesW3))
    (TileCache.update tilesW (PaletteManager.update (fun _ => 0) (fun _ => 0) PaletteManager.init).2
      0 0 (some (PPUStateExtractor.extractCHRBankSignature tilesW))
      TileCache.init)

/-- Witness for C10: after a bank-1-only region switch, exactly sheets
8–11 regenerate, the sprite query reports an update for group 2, and the
background query does not. -/
theorem C10_witness :
    (TileCache.sprSheetUpdated TileCache.init 0 = true
      ↔ (4 + 0 ∈ TileCache.init.updatedSheets ∨ 8 + 0 ∈ TileCache.init.updatedSheets))
    ∧ c10StateW.updatedSheets = (Finset.range 4).image (fun g' => 8 + g')
    ∧ TileCache.sprSheetUpdated c10StateW 2 = true
    ∧ TileCache.bgSheetUpdated c10StateW 2 = false := by
  have h := C10_sprSheetUpdated_bank_collapse TileCache.init 0 TileCache.init PaletteManager.init
    tilesW tilesW3 (fun _ => 0) (fun _ => 0) 0 0 c10StateW
  have hb := h.2 (by omega)
    (fun i hi => by unfold tilesW3; rw [if_neg (by omega)])
    (by decide)
    rfl
  exact ⟨h.1, hb.1, (hb.2 2 (by omega)).1, (hb.2 2 (by omega)).2⟩

/-! ### Background layer: scroll repositioning, transform and skipping
absent nametables -/

namespace BGLayer

lemma foldl_preserve {α : Type} (π : State → α) (g : State → Fin 4 → State)
    (hg : ∀ s q, π (g s q) = π s) (l : List (Fin 4)) :
    ∀ st : State, π (l.foldl g st) = π st := by
  induction l with
  | nil => intro st; rfl
  | cons x xs ih =>
    intro st
    rw [List.foldl_cons, ih, hg]

lemma cellFoldStep_quadLeft (ppu : PPUSnapshot) (f : Nat → Bool) (s : State) (q : Fin 4) :
    ((match ppu.nameTables (ppu.mirrorMap q) with
      | none => s
      | some nt => updateQuadrant q nt f s) : State).quadLeft = s.quadLeft := by
  cases ppu.nameTables (ppu.mirrorMap q) <;> rfl

lemma cellFoldStep_quadTop (ppu : PPUSnapshot) (f : Nat → Bool) (s : State) (q : Fin 4) :
    ((match ppu.nameTables (ppu.mirrorMap q) with
      | none => s
      | some nt => updateQuadrant q nt f s) : State).quadTop = s.quadTop := by
  cases ppu.nameTables (ppu.mirrorMap q) <;> rfl

lemma foldl_posStep_quadLeft (sx sy : Nat) (l : List (Fin 4)) :
    ∀ (st : State) (q : Fin 4),
      (l.foldl (posStep sx sy) st).quadLeft q = if q ∈ l then posX sx q else st.quadLeft q := by
  induction l with
  | nil => intro st q; simp
  | cons x xs ih =>
    intro st q
    rw [List.foldl_cons, ih]
    by_cases hxs : q ∈ xs
    · simp [hxs, List.mem_cons]
    · by_cases hx : q = x
      · subst hx
        simp [hxs, List.mem_cons, posStep, Function.update_same]
      · simp [hxs, hx, List.mem_cons, posStep, Function.update_noteq hx]

lemma foldl_posStep_quadTop (sx sy : Nat) (l : List (Fin 4)) :
    ∀ (st : State) (q : Fin 4),
      (l.foldl (posStep sx sy) st).quadTop q = if q ∈ l then posY sy q else st.quadTop q := by
  induction l with
  | nil => intro st q; simp
  | cons x xs ih =>
    intro st q
    rw [List.foldl_cons, ih]
    by_cases hxs : q ∈ xs
    · simp [hxs, List.mem_cons]
    · by_cases hx : q = x
      · subst hx
        simp [hxs, List.mem_cons, posStep, Function.update_same]
      · simp [hxs, hx, List.mem_cons, posStep, Function.update_noteq hx]

lemma update_quadLeft (ppu : PPUSnapshot) (f : Nat → Bool) (st : State) (q : Fin 4)
    (hvis : ppu.bgVisible = true) :
    (update ppu f st).quadLeft q
      = posX (ppu.scroll.coarseX * 8 + ppu.scroll.fineX + ppu.scroll.nameTableH * 256) q := by
  unfold update
  rw [hvis]
  simp only [Bool.true_eq_false, if_false]
  rw [foldl_posStep_quadLeft]
  simp [List.mem_finRange]

lemma update_quadTop (ppu : PPUSnapshot) (f : Nat → Bool) (st : State) (q : Fin 4)
    (hvis : ppu.bgVisible = true) :
    (update ppu f st).quadTop q
      = posY (ppu.scroll.coarseY * 8 + ppu.scroll.fineY + ppu.scroll.nameTableV * 240) q := by
  unfold update
  rw [hvis]
  simp only [Bool.true_eq_false, if_false]
  rw [foldl_posStep_quadTop]
  simp [List.mem_finRange]

lemma update_transform (ppu : PPUSnapshot) (f : Nat → Bool) (st : State)
    (hvis : ppu.bgVisible = true) :
    (update ppu f st).transform
      = (-((ppu.scroll.coarseX * 8 + ppu.scroll.fineX + ppu.scroll.nameTableH * 256 : Nat) : Int),
         -((ppu.scroll.coarseY * 8 + ppu.scroll.fineY + ppu.scroll.nameTableV * 240 : Nat) : Int)) := by
  unfold update
  rw [hvis]
  simp only [Bool.true_eq_false, if_false]

end BGLayer

/-- C6: for every quadrant `q` (column `c = q mod 2`, row `r = q div 2`)
and every scroll position, `BGLayer.update` places the quadrant at
`x = c*256 + 512` when `c*256 + 256 ≤ scrollX` and at `x = c*256`
otherwise, and at `y = r*240 + 480` when `r*240 + 240 ≤ scrollY` and at
`y = r*240` otherwise — a quadrant is advanced by one full virtual-plane
dimension exactly when its trailing edge is at or behind the scroll
origin, using only the 4 fixed quadrants. -/
theorem C6_quadrant_wrap_positions :
    ∀ (ppu : PPUSnapshot) (f : Nat → Bool) (st : BGLayer.State) (q : Fin 4),
      ppu.bgVisible = true →
      (BGLayer.update ppu f st).quadLeft q
        = (if q.val % 2 * 256 + 256 ≤ ppu.scroll.coarseX * 8 + ppu.scroll.fineX + ppu.scroll.nameTableH * 256
           then q.val % 2 * 256 + 512 else q.val % 2 * 256)
      ∧ (BGLayer.update ppu f st).quadTop q
        = (if q.val / 2 * 240 + 240 ≤ ppu.scroll.coarseY * 8 + ppu.scroll.fineY + ppu.scroll.nameTableV * 240
           then q.val / 2 * 240 + 480 else q.val / 2 * 240) := by
  intro ppu f st q hvis
  constructor
  · rw [BGLayer.update_quadLeft ppu f st q hvis]
    unfold BGLayer.posX
    rw [Nat.and_one_is_mod]
  · rw [BGLayer.update_quadTop ppu f st q hvis]
    unfold BGLayer.posY
    rw [Nat.shiftRight_eq_div_pow]

/-- Concrete nametable record for the background-layer witnesses. -/
def ntW : NTData := ⟨fun _ => 0, fun _ => 0⟩

/-- Concrete snapshot for the background-layer witnesses: all four
nametables present, zero scroll, background visible. -/
def ppuW : PPUSnapshot := ⟨fun _ => some ntW, fun _ => 0, Scroll.mk 0 0 0 0 0 0, true⟩

/-- Witness for C6: at zero scroll, quadrant 2 (column 0, row 1) sits at
(0, 240) — neither axis wraps. -/
theorem C6_witness :
    (BGLayer.update ppuW (fun _ => false) BGLayer.init).quadLeft 2 = 0
    ∧ (BGLayer.update ppuW (fun _ => false) BGLayer.init).quadTop 2 = 240 := by
  have h := C6_quadrant_wrap_positions ppuW (fun _ => false) BGLayer.init 2 rfl
  constructor
  · rw [h.1]
    norm_num [ppuW]
  · rw [h.2]
    norm_num [ppuW]

/-- C7: the absolute pixel scroll position computed per frame equals
`coarse*8 + fine + nametable_select*dim` with dimension 256 on X and 240
on Y — `BGLayer.update` translates the layer by exactly the negative of
the values `CSSRenderer.renderFrame` publishes — and the scroll fields
`coarseX = 10`, `fineX = 3`, `nameTableH = 1` yield absolute scroll X
339.  (`Scroll.mk` field order: coarseX coarseY fineX fineY nameTableH
nameTableV.) -/
theorem C7_absolute_scroll_formula :
    ∀ (ppu : PPUSnapshot) (f : Nat → Bool) (st : BGLayer.State) (s : Scroll),
      ppu.bgVisible = true →
      ((BGLayer.update ppu f st).transform
        = (-(CSSRenderer.datasetScrollX ppu.scroll : Int),
           -(CSSRenderer.datasetScrollY ppu.scroll : Int)))
      ∧ CSSRenderer.datasetScrollX s = s.coarseX * 8 + s.fineX + s.nameTableH * 256
      ∧ CSSRenderer.datasetScrollY s = s.coarseY * 8 + s.fineY + s.nameTableV * 240
      ∧ CSSRenderer.datasetScrollX (Scroll.mk 10 0 3 0 1 0) = 339 := by
  intro ppu f st s hvis
  refine ⟨?_, rfl, rfl, by decide⟩
  rw [BGLayer.update_transform ppu f st hvis]
  rfl

/-- Witness for C7 at the concrete snapshot `ppuW` and the scenario
scroll fields (coarseX 10, fineX 3, nameTableH 1). -/
theorem C7_witness :
    ((BGLayer.update ppuW (fun _ => false) BGLayer.init).transform
      = (-(CSSRenderer.datasetScrollX ppuW.scroll : Int),
         -(CSSRenderer.datasetScrollY ppuW.scroll : Int)))
    ∧ CSSRenderer.datasetScrollX (Scroll.mk 10 0 3 0 1 0) = 339 :=
  ⟨(C7_absolute_scroll_formula ppuW (fun _ => false) BGLayer.init (Scroll.mk 10 0 3 0 1 0) rfl).1,
   (C7_absolute_scroll_formula ppuW (fun _ => false) BGLayer.init (Scroll.mk 10 0 3 0 1 0) rfl).2.2.2⟩

/-- C8: when the mirror map sends quadrant `q` to an absent (`null`)
physical nametable, `BGLayer.update` leaves every cell of that quadrant
unmodified for the frame: the previous-tile and previous-attribute
baselines and the per-cell rendered state are unchanged, with no error
path. -/
theorem C8_null_nametable_leaves_quadrant_unmodified :
    ∀ (ppu : PPUSnapshot) (f : Nat → Bool) (st : BGLayer.State) (q : Fin 4),
      ppu.nameTables (ppu.mirrorMap q) = none →
      (BGLayer.update ppu f st).prevTile q = st.prevTile q
      ∧ (BGLayer.update ppu f st).prevAttrib q = st.prevAttrib q
      ∧ (BGLayer.update ppu f st).cells q = st.cells q := by
  intro ppu f st q hq
  have hstep : ∀ (s : BGLayer.State) (q' : Fin 4),
      ((match ppu.nameTables (ppu.mirrorMap q') with
        | none => s
        | some nt => BGLayer.updateQuadrant q' nt f s) : BGLayer.State).prevTile q = s.prevTile q
      ∧ ((match ppu.nameTables (ppu.mirrorMap q') with
        | none => s
        | some nt => BGLayer.updateQuadrant q' nt f s) : BGLayer.State).prevAttrib q = s.prevAttrib q
      ∧ ((match ppu.nameTables (ppu.mirrorMap q') with
        | none => s
        | some nt => BGLayer.updateQuadrant q' nt f s) : BGLayer.State).cells q = s.cells q := by
    intro s q'
    cases h : ppu.nameTables (ppu.mirrorMap q') with
    | none => exact ⟨rfl, rfl, rfl⟩
    | some nt =>
      by_cases hq' : q' = q
      · subst hq'
        rw [hq] at h
        exact absurd h (by simp)
      · have hne : q ≠ q' := fun he => hq' he.symm
        unfold BGLayer.updateQuadrant
        exact ⟨Function.update_noteq hne _ _, Function.update_noteq hne _ _,
          Function.update_noteq hne _ _⟩
  cases hvis : ppu.bgVisible with
  | false =>
    unfold BGLayer.update
    rw [hvis]
    simp
  | true =>
    unfold BGLayer.update
    rw [hvis]
    simp only [Bool.true_eq_false, if_false]
    refine ⟨?_, ?_, ?_⟩
    · rw [BGLayer.foldl_preserve (fun x => x.prevTile q)
          (BGLayer.posStep (ppu.scroll.coarseX * 8 + ppu.scroll.fineX + ppu.scroll.nameTableH * 256)
            (ppu.scroll.coarseY * 8 + ppu.scroll.fineY + ppu.scroll.nameTableV * 240))
          (fun s q' => rfl),
        BGLayer.foldl_preserve (fun x => x.prevTile q)
          (fun s q' =>
            match ppu.nameTables (ppu.mirrorMap q') with
            | none => s
            | some nt => BGLayer.updateQuadrant q' nt f s)
          (fun s q' => (hstep s q').1)]
    · rw [BGLayer.foldl_preserve (fun x => x.prevAttrib q)
          (BGLayer.posStep (ppu.scroll.coarseX * 8 + ppu.scroll.fineX + ppu.scroll.nameTableH * 256)
            (ppu.scroll.coarseY * 8 + ppu.scroll.fineY + ppu.scroll.nameTableV * 240))
          (fun s q' => rfl),
        BGLayer.foldl_preserve (fun x => x.prevAttrib q)
          (fun s q' =>
            match ppu.nameTables (ppu.mirrorMap q') with
            | none => s
            | some nt => BGLayer.updateQuadrant q' nt f s)
          (fun s q' => (hstep s q').2.1)]
    · rw [BGLayer.foldl_preserve (fun x => x.cells q)
          (BGLayer.posStep (ppu.scroll.coarseX * 8 + ppu.scroll.fineX + ppu.scroll.nameTableH * 256)
            (ppu.scroll.coarseY * 8 + ppu.scroll.fineY + ppu.scroll.nameTableV * 240))
          (fun s q' => rfl),
        BGLayer.foldl_preserve (fun x => x.cells q)
          (fun s q' =>
            match ppu.nameTables (ppu.mirrorMap q') with
            | none => s
            | some nt => BGLayer.updateQuadrant q' nt f s)
          (fun s q' => (hstep s q').2.2)]

/-- Snapshot for the C8 witness: every physical nametable slot absent. -/
def ppuW2 : PPUSnapshot := ⟨fun _ => none, fun _ => 0, Scroll.mk 0 0 0 0 0 0, true⟩

/-- Witness for C8: with all nametable slots null, quadrant 1's baselines
and cell state survive an update of the initial layer unchanged. -/
theorem C8_witness :
    (BGLayer.update ppuW2 (fun _ => false) BGLayer.init).prevTile 1 = BGLayer.init.prevTile 1
    ∧ (BGLayer.update ppuW2 (fun _ => false) BGLayer.init).prevAttrib 1 = BGLayer.init.prevAttrib 1
    ∧ (BGLayer.update ppuW2 (fun _ => false) BGLayer.init).cells 1 = BGLayer.init.cells 1 :=
  C8_null_nametable_leaves_quadrant_unmodified ppuW2 (fun _ => false) BGLayer.init 1 rfl
